import Mathlib

/-!
Shallow embedding of `syncfile.py`, a one-way directory mirror.

Modelling conventions:
* An absolute path is a `List String` of segments with the deepest segment
  first, so `/w/a/b` is `["b", "a", "w"]` and the parent of a path is its tail.
  A path `q` lies in the subtree rooted at `p` exactly when `p <:+ q`.
* A filesystem is a partial map from paths to nodes (`FS`); a node is either a
  regular file with its byte contents or a directory entry.
* Python functions that mutate the filesystem and may raise are embedded as
  `FS → Except PyErr FS` when they are atomic (no mutation survives a raise)
  and as `FS → FS × Option PyErr` when mutations made before the raise
  survive (`os.makedirs`, and the sync routines built from the primitives).
-/

/-- A filesystem node: a regular file with its contents, or a directory. -/
inductive FNode where
  | file (content : List Nat)
  | dir
deriving DecidableEq

/-- A filesystem state: a partial map from paths (deepest segment first) to nodes. -/
abbrev FS := List String → Option FNode

/-- The Python exceptions the embedded code can raise. -/
inductive PyErr where
  | fileNotFound
  | fileExists
  | isADirectory
  | notADirectory
  | sameFile
  | valueError
  | keyError
deriving DecidableEq

/-- Point update of a filesystem state. -/
def setPath (fs : FS) (p : List String) (v : Option FNode) : FS :=
  fun q => if q = p then v else fs q

/-- Path.is_file(): the path maps to a regular file. -/
def is_file (fs : FS) (p : List String) : Bool :=
  match fs p with
  | some (FNode.file _) => true
  | _ => false

/-- Path.is_dir(): the path maps to a directory. -/
def is_dir (fs : FS) (p : List String) : Bool :=
  match fs p with
  | some FNode.dir => true
  | _ => false

/-- Path.exists(): the path maps to some node. -/
def pexists (fs : FS) (p : List String) : Bool :=
  (fs p).isSome

/-- Path.parent: drop the deepest segment; the parent of the root is the root. -/
def parentP : List String → List String
  | [] => []
  | _ :: rest => rest

/-- The parent of `p` can hold a new entry: `p` is not the root and its parent
is the filesystem root or an existing directory. -/
def parentOk (fs : FS) (p : List String) : Bool :=
  match p with
  | [] => false
  | [_] => true
  | _ :: rest => is_dir fs rest

/-- Path.relative_to(root): the segments of `p` below `root`; ValueError when
`p` is not equal to or beneath `root`. -/
def relative_to (p root : List String) : Except PyErr (List String) :=
  if root <:+ p then Except.ok (p.take (p.length - root.length))
  else Except.error PyErr.valueError

/-- The `/` operator on paths: `base / rel` appends the relative segments below `base`. -/
def joinP (base rel : List String) : List String :=
  rel ++ base

/-- os.makedirs(p, exist_ok=True): create `p` and every missing ancestor as a
directory, shallowest first; raise when an entry in the way is a regular file,
keeping the directories already created. -/
def makedirs (fs : FS) (p : List String) : FS × Option PyErr :=
  match p with
  | [] => (fs, none)
  | _ :: rest =>
    let r := makedirs fs rest
    if r.2.isSome then r
    else if is_dir r.1 p then (r.1, none)
    else if pexists r.1 p then (r.1, some PyErr.fileExists)
    else (setPath r.1 p (some FNode.dir), none)

/-- FileHandler.check_folder: `if not target.exists(): os.makedirs(target, exist_ok=True)`. -/
def check_folder (fs : FS) (target : List String) : FS × Option PyErr :=
  if pexists fs target then (fs, none) else makedirs fs target

/-- Path.mkdir() with default arguments: raise if `p` already exists or its
parent is missing or not a directory; otherwise create the single entry `p`. -/
def mkdir (fs : FS) (p : List String) : Except PyErr FS :=
  if pexists fs p then Except.error PyErr.fileExists
  else if parentOk fs p then Except.ok (setPath fs p (some FNode.dir))
  else Except.error PyErr.fileNotFound

/-- Path.unlink(): remove a regular file; IsADirectoryError on a directory,
FileNotFoundError when the path is absent. -/
def unlink (fs : FS) (p : List String) : Except PyErr FS :=
  match fs p with
  | some (FNode.file _) => Except.ok (setPath fs p none)
  | some FNode.dir => Except.error PyErr.isADirectory
  | none => Except.error PyErr.fileNotFound

/-- shutil.rmtree(p): remove the directory `p` together with everything in its
subtree; NotADirectoryError on a regular file, FileNotFoundError when absent. -/
def rmtree (fs : FS) (p : List String) : Except PyErr FS :=
  match fs p with
  | some FNode.dir => Except.ok (fun q => if p <:+ q then none else fs q)
  | some (FNode.file _) => Except.error PyErr.notADirectory
  | none => Except.error PyErr.fileNotFound

/-- The destination adjustment inside shutil.copy: when `dst` is an existing
directory the copy target becomes `dst/basename(src)`. -/
def copy2_dst (fs : FS) (src dst : List String) : List String :=
  if is_dir fs dst then
    (match src with
     | s :: _ => s :: dst
     | [] => dst)
  else dst

/-- shutil.copy2(src, dst): when `dst` is an existing directory the copy lands
at `dst/basename(src)`; an existing file at the destination is overwritten;
SameFileError when source and destination are the same path, and the usual
errors when the source is not a regular file, the final destination is a
directory, or its parent cannot hold a file. -/
def copy2 (fs : FS) (src dst : List String) : Except PyErr FS :=
  let dstFinal := copy2_dst fs src dst
  if dstFinal = src ∧ pexists fs src then Except.error PyErr.sameFile
  else
    match fs src with
    | some (FNode.file c) =>
      if is_dir fs dstFinal then Except.error PyErr.isADirectory
      else if parentOk fs dstFinal then Except.ok (setPath fs dstFinal (some (FNode.file c)))
      else Except.error PyErr.fileNotFound
    | some FNode.dir => Except.error PyErr.isADirectory
    | none => Except.error PyErr.fileNotFound

/-- FileHandler.copy_file: delegates to shutil.copy2. -/
def copy_file (fs : FS) (src_path target_path : List String) : Except PyErr FS :=
  copy2 fs src_path target_path

/-- The four normalized event kinds dispatched by FileHandler.sync_file. -/
inductive EventType where
  | created
  | modified
  | deleted
  | moved
deriving DecidableEq

/-- A watchdog event as seen by the FileHandler callbacks. -/
structure FsEvent where
  src_path : List String
  dest_path : List String
  is_directory : Bool

/-- FileHandler.sync_file, branch `event_type in ["modified", "created"]`
(syncfile.py lines 44-53). -/
def sync_created (src_path target_folder watch_folder : List String) (fs : FS) :
    FS × Option PyErr :=
  match relative_to src_path watch_folder with
  | Except.error e => (fs, some e)
  | Except.ok rel =>
    let target_path := joinP target_folder rel
    let r := check_folder fs (parentP target_path)
    if r.2.isSome then r
    else
      let fs1 := r.1
      if is_file fs1 src_path then
        match copy_file fs1 src_path target_path with
        | Except.ok fs2 => (fs2, none)
        | Except.error e => (fs1, some e)
      else if is_dir fs1 target_path then
        if pexists fs1 target_path then (fs1, none)
        else
          match mkdir fs1 target_path with
          | Except.ok fs2 => (fs2, none)
          | Except.error e => (fs1, some e)
      else (fs1, none)

/-- FileHandler.sync_file, branch `event_type == "moved"`
(syncfile.py lines 54-74). -/
def sync_moved (src_path target_folder watch_folder dest_path : List String) (fs : FS) :
    FS × Option PyErr :=
  match relative_to src_path watch_folder with
  | Except.error e => (fs, some e)
  | Except.ok src_rel =>
  match relative_to dest_path watch_folder with
  | Except.error e => (fs, some e)
  | Except.ok dst_rel =>
    let target_path_old := joinP target_folder src_rel
    let target_path_new := joinP target_folder dst_rel
    if pexists fs target_path_old then
      if is_file fs target_path_old then
        match unlink fs target_path_old with
        | Except.error e => (fs, some e)
        | Except.ok fs1 =>
          match copy_file fs1 dest_path target_path_new with
          | Except.ok fs2 => (fs2, none)
          | Except.error e => (fs1, some e)
      else if is_dir fs target_path_old then
        match rmtree fs target_path_old with
        | Except.error e => (fs, some e)
        | Except.ok fs1 =>
          match mkdir fs1 target_path_new with
          | Except.ok fs2 => (fs2, none)
          | Except.error e => (fs1, some e)
      else (fs, none)
    else
      if is_file fs target_path_old then
        match copy_file fs dest_path target_path_new with
        | Except.ok fs2 => (fs2, none)
        | Except.error e => (fs, some e)
      else if is_dir fs target_path_old then
        match mkdir fs target_path_new with
        | Except.ok fs2 => (fs2, none)
        | Except.error e => (fs, some e)
      else (fs, none)

/-- FileHandler.sync_file, branch `event_type == "deleted"`
(syncfile.py lines 75-83). -/
def sync_deleted (src_path target_folder watch_folder : List String) (fs : FS) :
    FS × Option PyErr :=
  match relative_to src_path watch_folder with
  | Except.error e => (fs, some e)
  | Except.ok rel =>
    let target_path := joinP target_folder rel
    if pexists fs target_path then
      if is_file fs target_path then
        match unlink fs target_path with
        | Except.ok fs1 => (fs1, none)
        | Except.error e => (fs, some e)
      else if is_dir fs target_path then
        match rmtree fs target_path with
        | Except.ok fs1 => (fs1, none)
        | Except.error e => (fs, some e)
      else (fs, none)
    else (fs, none)

/-- FileHandler.sync_file (syncfile.py lines 40-83), dispatching on the event
kind. The state after the call is paired with the exception escaping it, if
any; mutations made before a raise survive it. -/
def sync_file (event_type : EventType) (src_path target_folder watch_folder dest_path : List String)
    (fs : FS) : FS × Option PyErr :=
  match event_type with
  | EventType.created => sync_created src_path target_folder watch_folder fs
  | EventType.modified => sync_created src_path target_folder watch_folder fs
  | EventType.moved => sync_moved src_path target_folder watch_folder dest_path fs
  | EventType.deleted => sync_deleted src_path target_folder watch_folder fs

/-- The step `if event.is_directory: self.check_folder(self.target_folder /
src_path.relative_to(self.watch_folder))` that every callback runs before its
try block (syncfile.py lines 90-91, 102-103, 114-115, 128-129). -/
def dirPrecheck (watch_folder target_folder : List String) (event : FsEvent) (fs : FS) :
    FS × Option PyErr :=
  if event.is_directory then
    match relative_to event.src_path watch_folder with
    | Except.error e => (fs, some e)
    | Except.ok rel => check_folder fs (joinP target_folder rel)
  else (fs, none)

/-- FileHandler.on_created (syncfile.py lines 85-95): the directory pre-check
runs outside the try block, then sync_file runs inside it with every exception
logged and swallowed. -/
def on_created (watch_folder target_folder : List String) (event : FsEvent) (fs : FS) :
    FS × Option PyErr :=
  let r := dirPrecheck watch_folder target_folder event fs
  if r.2.isSome then r
  else
    ((sync_file EventType.created event.src_path target_folder watch_folder event.dest_path r.1).1,
      none)

/-- FileHandler.on_modified (syncfile.py lines 97-107). -/
def on_modified (watch_folder target_folder : List String) (event : FsEvent) (fs : FS) :
    FS × Option PyErr :=
  let r := dirPrecheck watch_folder target_folder event fs
  if r.2.isSome then r
  else
    ((sync_file EventType.modified event.src_path target_folder watch_folder event.dest_path r.1).1,
      none)

/-- FileHandler.on_deleted (syncfile.py lines 109-119). -/
def on_deleted (watch_folder target_folder : List String) (event : FsEvent) (fs : FS) :
    FS × Option PyErr :=
  let r := dirPrecheck watch_folder target_folder event fs
  if r.2.isSome then r
  else
    ((sync_file EventType.deleted event.src_path target_folder watch_folder event.dest_path r.1).1,
      none)

/-- FileHandler.on_moved (syncfile.py lines 121-133). -/
def on_moved (watch_folder target_folder : List String) (event : FsEvent) (fs : FS) :
    FS × Option PyErr :=
  let r := dirPrecheck watch_folder target_folder event fs
  if r.2.isSome then r
  else
    ((sync_file EventType.moved event.src_path target_folder watch_folder event.dest_path r.1).1,
      none)

/-- Dispatch a watchdog event to the matching FileHandler callback. -/
def handle_event (watch_folder target_folder : List String) (etype : EventType)
    (event : FsEvent) (fs : FS) : FS × Option PyErr :=
  match etype with
  | EventType.created => on_created watch_folder target_folder event fs
  | EventType.modified => on_modified watch_folder target_folder event fs
  | EventType.deleted => on_deleted watch_folder target_folder event fs
  | EventType.moved => on_moved watch_folder target_folder event fs

/-- The configuration document, with each of the two keys possibly missing. -/
structure RawConfig where
  watch_folders : Option (List String)
  target_folders : Option (List String)

/-- load_config (syncfile.py lines 136-141): `config['watch_folders']` and
`config['target_folders']`; a missing key raises KeyError. -/
def load_config (c : RawConfig) : Except PyErr (List String × List String) :=
  match c.watch_folders with
  | none => Except.error PyErr.keyError
  | some w =>
    match c.target_folders with
    | none => Except.error PyErr.keyError
    | some t => Except.ok (w, t)

/-- The watch pairs main builds (syncfile.py lines 144-158):
`zip(watch_folders, target_folders)` after load_config. -/
def main_pairs (c : RawConfig) : Except PyErr (List (String × String)) :=
  match load_config c with
  | Except.error e => Except.error e
  | Except.ok (w, t) => Except.ok (w.zip t)

/-- No entry along the chain of ancestors of `p` (including `p` itself) is a
regular file; exactly the condition under which os.makedirs can succeed. -/
def chainClear (fs : FS) (p : List String) : Bool :=
  match p with
  | [] => true
  | _ :: rest => !is_file fs p && chainClear fs rest


/-! Basic lemmas about the filesystem primitives. -/

theorem setPath_self (fs : FS) (p : List String) (v : Option FNode) :
    setPath fs p v p = v := by
  simp [setPath]

theorem setPath_ne (fs : FS) (p : List String) (v : Option FNode) (q : List String)
    (h : q ≠ p) : setPath fs p v q = fs q := by
  simp [setPath, h]

theorem setPath_comm (fs : FS) (p1 p2 : List String) (v1 v2 : Option FNode)
    (h : p1 ≠ p2) :
    setPath (setPath fs p1 v1) p2 v2 = setPath (setPath fs p2 v2) p1 v1 := by
  funext q
  by_cases h2 : q = p2 <;> by_cases h1 : q = p1 <;>
    simp_all [setPath]

theorem node_file_of_not_dir (fs : FS) (p : List String)
    (h1 : pexists fs p = true) (h2 : ¬ is_dir fs p = true) : is_file fs p = true := by
  unfold pexists is_dir is_file at *
  cases h : fs p with
  | none => simp [h] at h1
  | some n => cases n <;> simp_all

theorem is_dir_pexists (fs : FS) (p : List String) (h : is_dir fs p = true) :
    pexists fs p = true := by
  unfold is_dir pexists at *
  cases h2 : fs p with
  | none => simp [h2] at h
  | some n => simp [h2]

theorem is_file_pexists (fs : FS) (p : List String) (h : is_file fs p = true) :
    pexists fs p = true := by
  unfold is_file pexists at *
  cases h2 : fs p with
  | none => simp [h2] at h
  | some n => simp [h2]

theorem pexists_none (fs : FS) (p : List String) (h : ¬ pexists fs p = true) :
    fs p = none := by
  unfold pexists at h
  cases h2 : fs p with
  | none => rfl
  | some n => rw [h2] at h; simp at h

theorem not_cons_suffix (s : String) (rest : List String) : ¬ (s :: rest) <:+ rest := by
  intro h
  have := h.length_le
  simp only [List.length_cons] at this
  omega

/-! Lemmas about os.makedirs. -/

theorem makedirs_changes (fs : FS) (p q : List String) :
    (makedirs fs p).1 q = fs q ∨
      ((makedirs fs p).1 q = some FNode.dir ∧ fs q = none ∧ q ≠ [] ∧ q <:+ p) := by
  induction p with
  | nil => left; rfl
  | cons s rest ih =>
    have weaken : (makedirs fs rest).1 q = fs q ∨
        ((makedirs fs rest).1 q = some FNode.dir ∧ fs q = none ∧ q ≠ [] ∧ q <:+ s :: rest) := by
      rcases ih with h | ⟨h1, h2, h3, h4⟩
      · left; exact h
      · right; exact ⟨h1, h2, h3, h4.trans (List.suffix_cons s rest)⟩
    simp only [makedirs]
    by_cases h2 : ((makedirs fs rest).2).isSome = true
    · rw [if_pos h2]; exact weaken
    · rw [if_neg h2]
      by_cases hd : is_dir (makedirs fs rest).1 (s :: rest) = true
      · rw [if_pos hd]; exact weaken
      · rw [if_neg hd]
        by_cases he : pexists (makedirs fs rest).1 (s :: rest) = true
        · rw [if_pos he]; exact weaken
        · rw [if_neg he]
          by_cases hq : q = s :: rest
          · subst hq
            right
            refine ⟨setPath_self _ _ _, ?_, by simp, List.suffix_rfl⟩
            rcases ih with h | ⟨h1, _, _, h4⟩
            · unfold pexists at he
              rw [h] at he
              exact Option.not_isSome_iff_eq_none.mp he
            · exact absurd h4 (not_cons_suffix s rest)
          · have hset : (setPath (makedirs fs rest).1 (s :: rest) (some FNode.dir),
                (none : Option PyErr)).1 q = (makedirs fs rest).1 q :=
              setPath_ne _ _ _ _ hq
            rw [hset]
            exact weaken

theorem makedirs_preserve (fs : FS) (p q : List String) (h : (fs q).isSome) :
    (makedirs fs p).1 q = fs q := by
  rcases makedirs_changes fs p q with h1 | ⟨_, h2, _, _⟩
  · exact h1
  · rw [h2] at h; simp at h

theorem makedirs_untouched (fs : FS) (p q : List String) (h : ¬ q <:+ p) :
    (makedirs fs p).1 q = fs q := by
  rcases makedirs_changes fs p q with h1 | ⟨_, _, _, h4⟩
  · exact h1
  · exact absurd h4 h

theorem makedirs_top (fs : FS) (s : String) (rest : List String) :
    (makedirs fs rest).1 (s :: rest) = fs (s :: rest) :=
  makedirs_untouched fs rest (s :: rest) (not_cons_suffix s rest)

theorem makedirs_ok_dir (fs : FS) (s : String) (rest : List String)
    (h : (makedirs fs (s :: rest)).2 = none) :
    is_dir (makedirs fs (s :: rest)).1 (s :: rest) = true := by
  simp only [makedirs] at h ⊢
  by_cases h2 : ((makedirs fs rest).2).isSome = true
  · rw [if_pos h2] at h
    rw [h] at h2
    simp at h2
  · rw [if_neg h2] at h ⊢
    by_cases hd : is_dir (makedirs fs rest).1 (s :: rest) = true
    · rw [if_pos hd] at h ⊢
      exact hd
    · rw [if_neg hd] at h ⊢
      by_cases he : pexists (makedirs fs rest).1 (s :: rest) = true
      · rw [if_pos he] at h
        simp at h
      · rw [if_neg he] at h ⊢
        unfold is_dir
        show (match setPath (makedirs fs rest).1 (s :: rest) (some FNode.dir) (s :: rest) with
          | some FNode.dir => true
          | _ => false) = true
        rw [setPath_self]

theorem makedirs_err_keeps (fs : FS) (s : String) (rest : List String)
    (h : ¬ (makedirs fs (s :: rest)).2 = none) :
    (makedirs fs (s :: rest)).1 (s :: rest) = fs (s :: rest) := by
  simp only [makedirs] at h ⊢
  by_cases h2 : ((makedirs fs rest).2).isSome = true
  · rw [if_pos h2] at h ⊢
    exact makedirs_top fs s rest
  · rw [if_neg h2] at h ⊢
    by_cases hd : is_dir (makedirs fs rest).1 (s :: rest) = true
    · rw [if_pos hd] at h
      simp at h
    · rw [if_neg hd] at h ⊢
      by_cases he : pexists (makedirs fs rest).1 (s :: rest) = true
      · rw [if_pos he] at h ⊢
        exact makedirs_top fs s rest
      · rw [if_neg he] at h
        simp at h

theorem makedirs_setPath_high (fs : FS) (rest p : List String) (v : Option FNode)
    (hlen : rest.length < p.length) :
    makedirs (setPath fs p v) rest =
      (setPath (makedirs fs rest).1 p v, (makedirs fs rest).2) := by
  induction rest with
  | nil => rfl
  | cons t r ih =>
    have hlen2 : r.length < p.length := by
      simp only [List.length_cons] at hlen
      omega
    have hne : (t :: r) ≠ p := by
      intro hcontra
      rw [← hcontra] at hlen
      simp at hlen
    simp only [makedirs]
    rw [ih hlen2]
    simp only
    by_cases h2 : ((makedirs fs r).2).isSome = true
    · rw [if_pos h2, if_pos h2]
    · rw [if_neg h2, if_neg h2]
      have hdir : is_dir (setPath (makedirs fs r).1 p v) (t :: r) =
          is_dir (makedirs fs r).1 (t :: r) := by
        unfold is_dir
        rw [setPath_ne _ _ _ _ hne]
      have hex : pexists (setPath (makedirs fs r).1 p v) (t :: r) =
          pexists (makedirs fs r).1 (t :: r) := by
        unfold pexists
        rw [setPath_ne _ _ _ _ hne]
      rw [hdir, hex]
      by_cases hd : is_dir (makedirs fs r).1 (t :: r) = true
      · rw [if_pos hd, if_pos hd]
      · rw [if_neg hd, if_neg hd]
        by_cases he : pexists (makedirs fs r).1 (t :: r) = true
        · rw [if_pos he, if_pos he]
        · rw [if_neg he, if_neg he]
          rw [setPath_comm _ _ _ _ _ (Ne.symm hne)]

theorem makedirs_cons (fs : FS) (s : String) (rest : List String) :
    makedirs fs (s :: rest) =
      if ((makedirs fs rest).2).isSome = true then makedirs fs rest
      else if is_dir (makedirs fs rest).1 (s :: rest) = true then ((makedirs fs rest).1, none)
      else if pexists (makedirs fs rest).1 (s :: rest) = true then
        ((makedirs fs rest).1, some PyErr.fileExists)
      else (setPath (makedirs fs rest).1 (s :: rest) (some FNode.dir), none) := rfl

theorem makedirs_idem (fs : FS) (p : List String) :
    makedirs (makedirs fs p).1 p = makedirs fs p := by
  induction p with
  | nil => rfl
  | cons s rest ih =>
    by_cases h2 : ((makedirs fs rest).2).isSome = true
    · have hstep : makedirs fs (s :: rest) = makedirs fs rest := by
        rw [makedirs_cons, if_pos h2]
      rw [hstep]
      rw [makedirs_cons, ih, if_pos h2]
    · by_cases hd : is_dir (makedirs fs rest).1 (s :: rest) = true
      · have hstep : makedirs fs (s :: rest) = ((makedirs fs rest).1, none) := by
          rw [makedirs_cons, if_neg h2, if_pos hd]
        rw [hstep]
        show makedirs (makedirs fs rest).1 (s :: rest) = ((makedirs fs rest).1, none)
        rw [makedirs_cons, ih, if_neg h2, if_pos hd]
      · by_cases he : pexists (makedirs fs rest).1 (s :: rest) = true
        · have hstep : makedirs fs (s :: rest) =
              ((makedirs fs rest).1, some PyErr.fileExists) := by
            rw [makedirs_cons, if_neg h2, if_neg hd, if_pos he]
          rw [hstep]
          show makedirs (makedirs fs rest).1 (s :: rest) =
            ((makedirs fs rest).1, some PyErr.fileExists)
          rw [makedirs_cons, ih, if_neg h2, if_neg hd, if_pos he]
        · have hstep : makedirs fs (s :: rest) =
              (setPath (makedirs fs rest).1 (s :: rest) (some FNode.dir), none) := by
            rw [makedirs_cons, if_neg h2, if_neg hd, if_neg he]
          rw [hstep]
          show makedirs (setPath (makedirs fs rest).1 (s :: rest) (some FNode.dir)) (s :: rest) =
            (setPath (makedirs fs rest).1 (s :: rest) (some FNode.dir), none)
          rw [makedirs_cons,
            makedirs_setPath_high (makedirs fs rest).1 rest (s :: rest) (some FNode.dir)
              (by simp), ih]
          have hdirset : is_dir (setPath (makedirs fs rest).1 (s :: rest) (some FNode.dir))
              (s :: rest) = true := by
            unfold is_dir
            rw [setPath_self]
          rw [if_neg h2, if_pos hdirset]

theorem makedirs_ok_iff (fs : FS) (p : List String) :
    (makedirs fs p).2 = none ↔ chainClear fs p = true := by
  induction p with
  | nil => simp [makedirs, chainClear]
  | cons s rest ih =>
    have huntouched : (makedirs fs rest).1 (s :: rest) = fs (s :: rest) :=
      makedirs_top fs s rest
    simp only [makedirs, chainClear]
    by_cases h2 : ((makedirs fs rest).2).isSome = true
    · rw [if_pos h2]
      have hc : chainClear fs rest = false := by
        by_contra hcc
        rw [ih.mpr (by simpa using hcc)] at h2
        simp at h2
      rw [hc]
      simp only [Bool.and_false]
      constructor
      · intro h
        rw [h] at h2
        simp at h2
      · intro h
        simp at h
    · rw [if_neg h2]
      have hcrest : chainClear fs rest = true := ih.mp (Option.not_isSome_iff_eq_none.mp h2)
      rw [hcrest]
      by_cases hd : is_dir (makedirs fs rest).1 (s :: rest) = true
      · rw [if_pos hd]
        have hnf : is_file fs (s :: rest) = false := by
          unfold is_file
          unfold is_dir at hd
          rw [huntouched] at hd
          cases hfs : fs (s :: rest) with
          | none => rfl
          | some n => cases n <;> simp_all
        simp [hnf]
      · rw [if_neg hd]
        by_cases he : pexists (makedirs fs rest).1 (s :: rest) = true
        · rw [if_pos he]
          have hf : is_file fs (s :: rest) = true := by
            have := node_file_of_not_dir (makedirs fs rest).1 (s :: rest) he hd
            unfold is_file at this ⊢
            rw [huntouched] at this
            exact this
          simp [hf]
        · rw [if_neg he]
          have hnf : is_file fs (s :: rest) = false := by
            unfold is_file
            unfold pexists at he
            rw [huntouched] at he
            cases hfs : fs (s :: rest) with
            | none => rfl
            | some n => rw [hfs] at he; simp at he
          simp [hnf]

/-! Lemmas about FileHandler.check_folder. -/

theorem check_folder_idem (fs : FS) (t : List String) :
    check_folder (check_folder fs t).1 t = check_folder fs t := by
  by_cases h : pexists fs t = true
  · simp [check_folder, h]
  · have h1 : check_folder fs t = makedirs fs t := by
      simp [check_folder, h]
    rw [h1]
    cases t with
    | nil =>
      simp [check_folder, makedirs, h]
    | cons s rest =>
      by_cases herr : (makedirs fs (s :: rest)).2 = none
      · have hd := makedirs_ok_dir fs s rest herr
        have hp := is_dir_pexists _ _ hd
        simp only [check_folder, if_pos hp]
        rw [← herr]
      · have hkeep := makedirs_err_keeps fs s rest herr
        have hp : ¬ pexists (makedirs fs (s :: rest)).1 (s :: rest) = true := by
          unfold pexists at h ⊢
          rw [hkeep]
          exact h
        simp only [check_folder, if_neg hp]
        exact makedirs_idem fs (s :: rest)

/-! Generic facts about the handler boundary. -/

theorem handle_event_snd (wf tf : List String) (et : EventType) (ev : FsEvent) (fs : FS) :
    (handle_event wf tf et ev fs).2 = (dirPrecheck wf tf ev fs).2 := by
  have key : ∀ g : FS × Option PyErr, ∀ x : FS,
      (if g.2.isSome = true then g else (x, none)).2 = g.2 := by
    intro g x
    by_cases h : g.2.isSome = true
    · rw [if_pos h]
    · rw [if_neg h, Option.not_isSome_iff_eq_none.mp h]
  cases et <;>
    simp only [handle_event, on_created, on_modified, on_deleted, on_moved] <;>
    exact key _ _

/-! Claim theorems. -/

/-- C8: for every WatchPair and every absolute path `rel ++ watch` equal to or
beneath the watch root, the computed mirror target path strips exactly the
watch-root suffix and re-roots the remaining segments, in order, under the
mirror root: `relative_to` recovers `rel` and the join produces `rel ++ mirror`
(paths are written deepest segment first). -/
theorem path_mapping_strips_watch_root (watch mirror rel : List String) :
    relative_to (rel ++ watch) watch = Except.ok rel ∧
    joinP mirror rel = rel ++ mirror := by
  constructor
  · unfold relative_to
    have h1 : (rel ++ watch).length - watch.length = rel.length := by simp
    rw [if_pos (List.suffix_append rel watch), h1, List.take_left]
  · rfl

/-- Mirror state for the stale Moved event: the watch root `/w` holds the moved
file at its destination `/w/b`, the mirror root `/d` exists, and the old mirror
target `/d/a` is absent. -/
def fsC1 : FS := fun q =>
  if q = ["w"] then some FNode.dir
  else if q = ["b", "w"] then some (FNode.file [1])
  else if q = ["d"] then some FNode.dir
  else none

/-- C1: a Moved event whose old mirror target does not exist performs no
action at all. The stale branch tests `target_path_old.is_file()` and
`.is_dir()` on a path just established not to exist, so both tests are false:
here the destination `/w/b` is a regular file, yet nothing is copied to the
new target `/d/b` and no directory is created, and no error is raised. -/
theorem moved_stale_absent_does_nothing :
    is_file fsC1 ["b", "w"] = true ∧
    fsC1 ["a", "d"] = none ∧
    (sync_file EventType.moved ["a", "w"] ["d"] ["w"] ["b", "w"] fsC1).1 ["b", "d"] = none ∧
    (sync_file EventType.moved ["a", "w"] ["d"] ["w"] ["b", "w"] fsC1).2 = none := by
  refine ⟨by decide, by decide, by decide, by decide⟩

/-- C9 counterexample: a length mismatch between watch_folders and
target_folders is not a fatal startup error; main zips the two sequences and
silently proceeds with the pairing truncated to the shorter one. -/
theorem config_length_mismatch_not_fatal :
    (["w1", "w2"] : List String).length ≠ (["t1"] : List String).length ∧
    main_pairs ⟨some ["w1", "w2"], some ["t1"]⟩ = Except.ok [("w1", "t1")] :=
  ⟨by decide, rfl⟩

/-- C9 amended: a missing watch_folders or target_folders key is a fatal
startup error (KeyError escapes load_config before any pair is watched); a
length mismatch between the two sequences is not detected, and main proceeds
with the index-wise pairing `zip` produces, truncated to the shorter list. -/
theorem config_missing_key_fatal (c : RawConfig) (w t : List String) :
    ((c.watch_folders = none ∨ c.target_folders = none) →
      main_pairs c = Except.error PyErr.keyError) ∧
    (c.watch_folders = some w → c.target_folders = some t →
      main_pairs c = Except.ok (w.zip t)) := by
  obtain ⟨cw, ct⟩ := c
  cases cw <;> cases ct <;> constructor <;>
    simp [main_pairs, load_config]
  · rintro rfl rfl
    rfl

/-- C9 witness: the amended claim at concrete configurations, one with a
missing key and one well-formed. -/
theorem config_missing_key_fatal_witness :
    main_pairs ⟨none, some ["t1"]⟩ = Except.error PyErr.keyError ∧
    main_pairs ⟨some ["w1"], some ["t1"]⟩ = Except.ok [("w1", "t1")] :=
  ⟨(config_missing_key_fatal ⟨none, some ["t1"]⟩ [] []).1 (Or.inl rfl),
   (config_missing_key_fatal ⟨some ["w1"], some ["t1"]⟩ ["w1"] ["t1"]).2 rfl rfl⟩

/-- Mirror state blocking the pre-try directory check: the watched directory
`/w/a/b` exists, but the mirror entry `/d/a` is a regular file, so
os.makedirs on the target `/d/a/b` must fail. -/
def fsC3 : FS := fun q =>
  if q = ["w"] then some FNode.dir
  else if q = ["a", "w"] then some FNode.dir
  else if q = ["b", "a", "w"] then some FNode.dir
  else if q = ["d"] then some FNode.dir
  else if q = ["a", "d"] then some (FNode.file []) else none

/-- C3 counterexample: a failure while handling an event is not always caught
at the per-event boundary. For a directory Created event whose target chain is
blocked by a mirror-side regular file, check_folder runs before the try block,
its error escapes on_created, and the handler does not return normally. -/
theorem precheck_error_escapes_handler :
    (on_created ["w"] ["d"] ⟨["b", "a", "w"], [], true⟩ fsC3).2 = some PyErr.fileExists := by
  decide

/-- C3 amended: every exception raised by the sync_file call inside the try
block is caught, logged and swallowed, for all four event kinds; the only
error that can escape a handler is one raised by the directory pre-check that
runs before the try block, and that pre-check runs only for directory events,
so handlers for non-directory events always return normally. -/
theorem handler_error_propagation (wf tf : List String) (et : EventType)
    (ev : FsEvent) (fs : FS) :
    (handle_event wf tf et ev fs).2 = (dirPrecheck wf tf ev fs).2 ∧
    ((dirPrecheck wf tf ev fs).2 = none ∨ ev.is_directory = true) := by
  refine ⟨handle_event_snd wf tf et ev fs, ?_⟩
  by_cases h : ev.is_directory = true
  · right; exact h
  · left
    unfold dirPrecheck
    rw [if_neg h]

/-- Mirror state for the Deleted directory event: the watched directory
`/w/a/b` exists; its mirror target `/d/a/b` is absent and so is the ancestor
`/d/a`. -/
def fsC4 : FS := fun q =>
  if q = ["w"] then some FNode.dir
  else if q = ["a", "w"] then some FNode.dir
  else if q = ["b", "a", "w"] then some FNode.dir
  else if q = ["d"] then some FNode.dir
  else none

/-- C4: a Deleted event for a directory whose mirror target is absent is not a
no-op. on_deleted runs check_folder on the target before its try block,
creating the target and its missing ancestors; sync_file then removes only the
target itself, so the previously missing ancestor `/d/a` is left behind as a
new directory while no error is reported. -/
theorem deleted_absent_dir_event_mutates_mirror :
    fsC4 ["a", "d"] = none ∧
    fsC4 ["b", "a", "d"] = none ∧
    (on_deleted ["w"] ["d"] ⟨["b", "a", "w"], [], true⟩ fsC4).1 ["a", "d"] = some FNode.dir ∧
    (on_deleted ["w"] ["d"] ⟨["b", "a", "w"], [], true⟩ fsC4).2 = none := by
  refine ⟨by decide, by decide, by decide, by decide⟩

/-! Further node and makedirs lemmas. -/

theorem is_file_false_of_dir (fs : FS) (p : List String) (h : is_dir fs p = true) :
    is_file fs p = false := by
  unfold is_dir is_file at *
  cases h2 : fs p with
  | none => simp [h2] at h
  | some n => cases n <;> simp_all

theorem node_dir_of_not_file (fs : FS) (p : List String)
    (h1 : pexists fs p = true) (h2 : is_file fs p = false) : is_dir fs p = true := by
  unfold pexists is_file is_dir at *
  cases h : fs p with
  | none => simp [h] at h1
  | some n => cases n <;> simp_all

theorem chainClear_head (fs : FS) (s : String) (rest : List String)
    (h : chainClear fs (s :: rest) = true) : is_file fs (s :: rest) = false := by
  simp only [chainClear, Bool.and_eq_true, Bool.not_eq_true'] at h
  exact h.1

theorem chainClear_tail (fs : FS) (s : String) (rest : List String)
    (h : chainClear fs (s :: rest) = true) : chainClear fs rest = true := by
  simp only [chainClear, Bool.and_eq_true] at h
  exact h.2

theorem makedirs_done (fs : FS) (p : List String)
    (h : ∀ q, q ≠ [] → q <:+ p → is_dir fs q = true) :
    makedirs fs p = (fs, none) := by
  induction p with
  | nil => rfl
  | cons s rest ih =>
    have hr : makedirs fs rest = (fs, none) :=
      ih fun q hq hsub => h q hq (hsub.trans (List.suffix_cons s rest))
    rw [makedirs_cons, hr]
    have hd : is_dir fs (s :: rest) = true := h _ (by simp) List.suffix_rfl
    simp [hd]

theorem makedirs_ok_chain (fs : FS) (p : List String) (h : (makedirs fs p).2 = none) :
    ∀ q, q ≠ [] → q <:+ p → is_dir (makedirs fs p).1 q = true := by
  induction p with
  | nil =>
    intro q hq hsub
    exact absurd (List.suffix_nil.mp hsub) hq
  | cons s rest ih =>
    intro q hq hsub
    have h2 : ¬ ((makedirs fs rest).2).isSome = true := by
      intro hcon
      rw [makedirs_cons, if_pos hcon] at h
      rw [h] at hcon
      simp at hcon
    have hrestok : (makedirs fs rest).2 = none := Option.not_isSome_iff_eq_none.mp h2
    rcases List.suffix_cons_iff.mp hsub with rfl | hsub2
    · exact makedirs_ok_dir fs s rest h
    · have hq2 : is_dir (makedirs fs rest).1 q = true := ih hrestok q hq hsub2
      have hlt : q ≠ s :: rest := by
        intro hcon
        rw [hcon] at hsub2
        exact not_cons_suffix s rest hsub2
      rw [makedirs_cons, if_neg h2]
      by_cases hd : is_dir (makedirs fs rest).1 (s :: rest) = true
      · rw [if_pos hd]; exact hq2
      · rw [if_neg hd]
        by_cases he : pexists (makedirs fs rest).1 (s :: rest) = true
        · rw [if_pos he]; exact hq2
        · rw [if_neg he]
          show is_dir (setPath (makedirs fs rest).1 (s :: rest) (some FNode.dir)) q = true
          unfold is_dir at hq2 ⊢
          rw [setPath_ne _ _ _ _ hlt]
          exact hq2

/-! Lemmas about check_folder as used by the sync routines. -/

theorem check_folder_ok_of_chainClear (fs : FS) (t : List String)
    (h : chainClear fs t = true) : (check_folder fs t).2 = none := by
  unfold check_folder
  by_cases hp : pexists fs t = true
  · rw [if_pos hp]
  · rw [if_neg hp]
    exact (makedirs_ok_iff fs t).mpr h

theorem check_folder_preserve (fs : FS) (t q : List String) (h : (fs q).isSome = true) :
    (check_folder fs t).1 q = fs q := by
  unfold check_folder
  by_cases hp : pexists fs t = true
  · rw [if_pos hp]
  · rw [if_neg hp]
    exact makedirs_preserve fs t q h

theorem check_folder_untouched (fs : FS) (t q : List String) (h : ¬ q <:+ t) :
    (check_folder fs t).1 q = fs q := by
  unfold check_folder
  by_cases hp : pexists fs t = true
  · rw [if_pos hp]
  · rw [if_neg hp]
    exact makedirs_untouched fs t q h

theorem check_folder_dir (fs : FS) (s : String) (rest : List String)
    (h : chainClear fs (s :: rest) = true) :
    is_dir (check_folder fs (s :: rest)).1 (s :: rest) = true := by
  unfold check_folder
  by_cases hp : pexists fs (s :: rest) = true
  · rw [if_pos hp]
    exact node_dir_of_not_file fs (s :: rest) hp (chainClear_head fs s rest h)
  · rw [if_neg hp]
    exact makedirs_ok_dir fs s rest ((makedirs_ok_iff fs (s :: rest)).mpr h)

/-- The states an actual filesystem can be in: the parent of every existing
non-top-level entry is a directory. -/
def ancClosed (fs : FS) : Prop :=
  ∀ s : String, ∀ q : List String, (fs (s :: q)).isSome = true → q ≠ [] → is_dir fs q = true

theorem ancClosed_chain (fs : FS) (hanc : ancClosed fs) (p : List String)
    (hp : (fs p).isSome = true) :
    ∀ q, q ≠ [] → q <:+ p → q = p ∨ is_dir fs q = true := by
  induction p with
  | nil =>
    intro q hq hsub
    exact absurd (List.suffix_nil.mp hsub) hq
  | cons s rest ih =>
    intro q hq hsub
    rcases List.suffix_cons_iff.mp hsub with rfl | hsub2
    · left; rfl
    · right
      have hrestne : rest ≠ [] := by
        intro hcon
        rw [hcon] at hsub2
        exact hq (List.suffix_nil.mp hsub2)
      have hrest : is_dir fs rest = true := hanc s rest hp hrestne
      rcases ih (is_dir_pexists fs rest hrest) q hq hsub2 with rfl | hdir
      · exact hrest
      · exact hdir

theorem check_folder_skip (fs : FS) (t : List String) (h : pexists fs t = true) :
    check_folder fs t = (fs, none) := by
  unfold check_folder
  rw [if_pos h]

theorem check_folder_nil (fs : FS) : check_folder fs [] = (fs, none) := by
  unfold check_folder
  by_cases hp : pexists fs [] = true
  · rw [if_pos hp]
  · rw [if_neg hp]; rfl

theorem makedirs_noop_of_present (fs : FS) (hanc : ancClosed fs) (p : List String)
    (hp : pexists fs p = true) (hclear : chainClear fs p = true) :
    makedirs fs p = (fs, none) := by
  apply makedirs_done
  intro q hq hsub
  rcases ancClosed_chain fs hanc p hp q hq hsub with rfl | hdir
  · cases q with
    | nil => exact absurd rfl hq
    | cons s rest => exact node_dir_of_not_file fs _ hp (chainClear_head fs s rest hclear)
  · exact hdir

theorem handle_created_or_modified (wf tf : List String) (et : EventType) (ev : FsEvent)
    (fs : FS) (hkind : et = EventType.created ∨ et = EventType.modified) :
    handle_event wf tf et ev fs =
      (if ((dirPrecheck wf tf ev fs).2).isSome = true then dirPrecheck wf tf ev fs
       else ((sync_created ev.src_path tf wf (dirPrecheck wf tf ev fs).1).1, none)) := by
  rcases hkind with rfl | rfl <;> rfl

theorem sync_created_eq (src tf wf rel tp : List String) (fs : FS)
    (hrel : relative_to src wf = Except.ok rel) (htp : tp = joinP tf rel) :
    sync_created src tf wf fs =
      (if ((check_folder fs (parentP tp)).2).isSome = true then check_folder fs (parentP tp)
       else if is_file (check_folder fs (parentP tp)).1 src = true then
         match copy_file (check_folder fs (parentP tp)).1 src tp with
         | Except.ok fs2 => (fs2, none)
         | Except.error e => ((check_folder fs (parentP tp)).1, some e)
       else if is_dir (check_folder fs (parentP tp)).1 tp = true then
         if pexists (check_folder fs (parentP tp)).1 tp = true then
           ((check_folder fs (parentP tp)).1, none)
         else
           match mkdir (check_folder fs (parentP tp)).1 tp with
           | Except.ok fs2 => (fs2, none)
           | Except.error e => ((check_folder fs (parentP tp)).1, some e)
       else ((check_folder fs (parentP tp)).1, none)) := by
  subst htp
  unfold sync_created
  rw [hrel]

/-- C5 amended: for a Created or Modified event whose sourcePath is a
directory, in a well-formed mirror state (parents of existing entries are
directories) in which no entry along the target chain is a regular file,
processing ends with the mirror target existing as a directory, creating it
and any missing ancestors exactly as os.makedirs would, and preserving every
existing entry; in particular it is a no-op when the target already exists.
When a regular file blocks the target chain the creation fails instead (see
the counterexample). -/
theorem created_dir_event_ensures_target (wf tf rel tp : List String) (et : EventType)
    (ev : FsEvent) (fs : FS)
    (hkind : et = EventType.created ∨ et = EventType.modified)
    (hdir : ev.is_directory = true)
    (hsrc : is_dir fs ev.src_path = true)
    (hrel : relative_to ev.src_path wf = Except.ok rel)
    (htp : tp = joinP tf rel)
    (htpne : tp ≠ [])
    (hclear : chainClear fs tp = true)
    (hanc : ancClosed fs) :
    handle_event wf tf et ev fs = ((makedirs fs tp).1, none) ∧
    is_dir (makedirs fs tp).1 tp = true ∧
    (∀ q, (fs q).isSome = true → (makedirs fs tp).1 q = fs q) := by
  have hmdok : (makedirs fs tp).2 = none := (makedirs_ok_iff fs tp).mpr hclear
  have hpre : dirPrecheck wf tf ev fs = check_folder fs tp := by
    unfold dirPrecheck
    rw [if_pos hdir, hrel]
    show check_folder fs (joinP tf rel) = check_folder fs tp
    rw [htp]
  have hcfsnd : (check_folder fs tp).2 = none := check_folder_ok_of_chainClear fs tp hclear
  have hfs2 : (check_folder fs tp).1 = (makedirs fs tp).1 := by
    unfold check_folder
    by_cases hp : pexists fs tp = true
    · rw [if_pos hp, makedirs_noop_of_present fs hanc tp hp hclear]
    · rw [if_neg hp]
  obtain ⟨s, rest, htpeq⟩ : ∃ s rest, tp = s :: rest := by
    cases tp with
    | nil => exact absurd rfl htpne
    | cons a b => exact ⟨a, b, rfl⟩
  subst htpeq
  have hdirtp : is_dir (makedirs fs (s :: rest)).1 (s :: rest) = true := by
    rw [← hfs2]
    exact check_folder_dir fs s rest hclear
  refine ⟨?_, hdirtp, fun q hq => makedirs_preserve fs (s :: rest) q hq⟩
  rw [handle_created_or_modified wf tf et ev fs hkind, hpre]
  have hnotsome : ¬ ((check_folder fs (s :: rest)).2).isSome = true := by
    rw [hcfsnd]; simp
  rw [if_neg hnotsome]
  have hsrc2 : is_dir (check_folder fs (s :: rest)).1 ev.src_path = true := by
    unfold is_dir at hsrc ⊢
    rw [hfs2, makedirs_preserve fs (s :: rest) ev.src_path]
    · exact hsrc
    · cases h2 : fs ev.src_path with
      | none => rw [h2] at hsrc; simp at hsrc
      | some n => simp
  have hcfparent : check_folder (check_folder fs (s :: rest)).1 (parentP (s :: rest)) =
      ((check_folder fs (s :: rest)).1, none) := by
    show check_folder (check_folder fs (s :: rest)).1 rest =
      ((check_folder fs (s :: rest)).1, none)
    by_cases hrest : rest = []
    · rw [hrest]
      exact check_folder_nil _
    · have hrestdir : is_dir (check_folder fs (s :: rest)).1 rest = true := by
        rw [hfs2]
        exact makedirs_ok_chain fs (s :: rest) hmdok rest hrest (List.suffix_cons s rest)
      exact check_folder_skip _ rest (is_dir_pexists _ _ hrestdir)
  rw [sync_created_eq ev.src_path tf wf rel (s :: rest) (check_folder fs (s :: rest)).1 hrel htp]
  rw [hcfparent]
  have h1 : ¬ (((check_folder fs (s :: rest)).1, (none : Option PyErr)).2).isSome = true := by
    simp
  rw [if_neg h1]
  have hdirtp2 : is_dir (check_folder fs (s :: rest)).1 (s :: rest) = true := by
    rw [hfs2]; exact hdirtp
  have hex2 : pexists (check_folder fs (s :: rest)).1 (s :: rest) = true :=
    is_dir_pexists _ _ hdirtp2
  have hnotfile : ¬ is_file ((check_folder fs (s :: rest)).1, (none : Option PyErr)).1
      ev.src_path = true := by
    show ¬ is_file (check_folder fs (s :: rest)).1 ev.src_path = true
    rw [is_file_false_of_dir _ _ hsrc2]
    simp
  rw [if_neg hnotfile]
  show ((if is_dir (check_folder fs (s :: rest)).1 (s :: rest) = true then
      if pexists (check_folder fs (s :: rest)).1 (s :: rest) = true then
        ((check_folder fs (s :: rest)).1, none)
      else
        match mkdir (check_folder fs (s :: rest)).1 (s :: rest) with
        | Except.ok fs2 => (fs2, none)
        | Except.error e => ((check_folder fs (s :: rest)).1, some e)
    else ((check_folder fs (s :: rest)).1, none)).1, none)
      = ((makedirs fs (s :: rest)).1, none)
  rw [if_pos hdirtp2, if_pos hex2, hfs2]

/-- Mirror state where a regular file at `/d/a` blocks the chain of the mirror
target `/d/a/b` of the watched directory `/w/a/b`. -/
def fsC5 : FS := fun q =>
  if q = ["w"] then some FNode.dir
  else if q = ["a", "w"] then some FNode.dir
  else if q = ["b", "a", "w"] then some FNode.dir
  else if q = ["d"] then some FNode.dir
  else if q = ["a", "d"] then some (FNode.file [7]) else none

/-- C5 counterexample: a Created event for the directory `/w/a/b` whose mirror
target `/d/a/b` does not exist does not create it when a mirror-side regular
file (`/d/a`) blocks the chain: processing leaves the target absent (and the
error escapes the handler). -/
theorem created_dir_event_blocked_by_file_ancestor :
    is_dir fsC5 ["b", "a", "w"] = true ∧
    fsC5 ["b", "a", "d"] = none ∧
    (on_created ["w"] ["d"] ⟨["b", "a", "w"], [], true⟩ fsC5).1 ["b", "a", "d"] = none := by
  refine ⟨by decide, by decide, by decide⟩

/-- A clean mirror pair for the C5 witness: `/w` and `/w/a` are watched
directories, the mirror root `/d` exists and the target `/d/a` is absent. -/
def fsW5 : FS := fun q =>
  if q = ["w"] then some FNode.dir
  else if q = ["a", "w"] then some FNode.dir
  else if q = ["d"] then some FNode.dir
  else none

theorem fsW5_ancClosed : ancClosed fsW5 := by
  intro s q h hq
  simp only [fsW5] at h
  split_ifs at h with h1 h2 h3
  · injection h1 with hs hq2
    exact absurd hq2 hq
  · injection h2 with hs hq2
    subst hq2
    decide
  · injection h3 with hs hq2
    exact absurd hq2 hq
  · simp at h

/-- C5 witness: the amended claim instantiated at a Created event for the
directory `/w/a` with mirror target `/d/a` absent. -/
theorem created_dir_event_ensures_target_witness :
    handle_event ["w"] ["d"] EventType.created ⟨["a", "w"], [], true⟩ fsW5 =
      ((makedirs fsW5 ["a", "d"]).1, none) ∧
    is_dir (makedirs fsW5 ["a", "d"]).1 ["a", "d"] = true :=
  have h := created_dir_event_ensures_target ["w"] ["d"] ["a"] ["a", "d"]
    EventType.created ⟨["a", "w"], [], true⟩ fsW5 (Or.inl rfl) rfl (by decide) rfl rfl
    (by decide) (by decide) fsW5_ancClosed
  ⟨h.1, h.2.1⟩

theorem parentOk_of_dir (fs : FS) (p : List String) (hp : p ≠ [])
    (h : parentP p = [] ∨ is_dir fs (parentP p) = true) : parentOk fs p = true := by
  cases p with
  | nil => exact absurd rfl hp
  | cons s rest =>
    cases rest with
    | nil => rfl
    | cons t r =>
      show is_dir fs (t :: r) = true
      rcases h with h | h
      · exact absurd h (by simp [parentP])
      · exact h

theorem copy2_dst_not_dir (fs : FS) (src dst : List String) (h : is_dir fs dst = false) :
    copy2_dst fs src dst = dst := by
  unfold copy2_dst
  rw [if_neg (by rw [h]; simp : ¬ is_dir fs dst = true)]

theorem copy2_dst_ne (fs : FS) (src dst q : List String) (h1 : q ≠ dst)
    (h2 : q.length ≤ dst.length) : q ≠ copy2_dst fs src dst := by
  unfold copy2_dst
  by_cases hd : is_dir fs dst = true
  · rw [if_pos hd]
    cases src with
    | nil => exact h1
    | cons s r =>
      show q ≠ s :: dst
      intro hcon
      rw [hcon] at h2
      simp at h2
  · rw [if_neg hd]
    exact h1

theorem copy2_ok (fs : FS) (src dst : List String) (c : List Nat)
    (hsrc : fs src = some (FNode.file c))
    (hdst : is_dir fs dst = false)
    (hne : dst ≠ src)
    (hpok : parentOk fs dst = true) :
    copy2 fs src dst = Except.ok (setPath fs dst (some (FNode.file c))) := by
  simp only [copy2]
  rw [copy2_dst_not_dir fs src dst hdst]
  rw [if_neg (fun hcon => hne hcon.1), hsrc]
  show (if is_dir fs dst = true then Except.error PyErr.isADirectory
    else if parentOk fs dst = true then Except.ok (setPath fs dst (some (FNode.file c)))
    else Except.error PyErr.fileNotFound) = Except.ok (setPath fs dst (some (FNode.file c)))
  rw [if_neg (by rw [hdst]; simp : ¬ is_dir fs dst = true), if_pos hpok]

theorem sync_file_created_eq (et : EventType) (src tf wf dst : List String) (fs : FS)
    (hkind : et = EventType.created ∨ et = EventType.modified) :
    sync_file et src tf wf dst fs = sync_created src tf wf fs := by
  rcases hkind with rfl | rfl <;> rfl

/-- C6 amended: for a Created or Modified event whose sourcePath is a regular
file, provided the mirror target is not an existing directory, no entry along
the target's parent chain is a regular file, and the target differs from the
source path (distinct roots), processing ensures the parent directory chain of
the target and copies the file, so afterwards the mirror target holds exactly
the source's bytes and its parent exists as a directory. When the mirror
target is an existing directory the bytes land inside it instead (see the
counterexample). -/
theorem created_file_event_copies (et : EventType) (src tf wf dst rel tp : List String)
    (fs : FS) (c : List Nat)
    (hkind : et = EventType.created ∨ et = EventType.modified)
    (hsrc : fs src = some (FNode.file c))
    (hrel : relative_to src wf = Except.ok rel)
    (htp : tp = joinP tf rel)
    (htpne : tp ≠ [])
    (hclear : chainClear fs (parentP tp) = true)
    (hnd : is_dir fs tp = false)
    (hne : tp ≠ src) :
    sync_file et src tf wf dst fs =
      (setPath (check_folder fs (parentP tp)).1 tp (some (FNode.file c)), none) ∧
    (sync_file et src tf wf dst fs).1 tp = some (FNode.file c) ∧
    (parentP tp = [] ∨ is_dir (sync_file et src tf wf dst fs).1 (parentP tp) = true) := by
  obtain ⟨s, rest, htpeq⟩ : ∃ s rest, tp = s :: rest := by
    cases tp with
    | nil => exact absurd rfl htpne
    | cons a b => exact ⟨a, b, rfl⟩
  have hparent : parentP tp = rest := by rw [htpeq]; rfl
  have hcfsnd : (check_folder fs (parentP tp)).2 = none :=
    check_folder_ok_of_chainClear fs (parentP tp) hclear
  have hpres : (check_folder fs (parentP tp)).1 src = fs src := by
    apply check_folder_preserve
    rw [hsrc]
    simp
  have htpuntouched : (check_folder fs (parentP tp)).1 tp = fs tp := by
    apply check_folder_untouched
    rw [hparent, htpeq]
    exact not_cons_suffix s rest
  have hrdir : rest ≠ [] → is_dir (check_folder fs (parentP tp)).1 rest = true := by
    intro hrest
    obtain ⟨t, r, hreq⟩ : ∃ t r, rest = t :: r := by
      cases rest with
      | nil => exact absurd rfl hrest
      | cons a b => exact ⟨a, b, rfl⟩
    rw [hparent, hreq]
    exact check_folder_dir fs t r (by rw [← hreq, ← hparent]; exact hclear)
  have hpok : parentOk (check_folder fs (parentP tp)).1 tp = true := by
    apply parentOk_of_dir _ _ htpne
    by_cases hrest : rest = []
    · left; rw [hparent]; exact hrest
    · right
      have h2 := hrdir hrest
      rw [← hparent] at h2
      exact h2
  have hcopy : copy_file (check_folder fs (parentP tp)).1 src tp =
      Except.ok (setPath (check_folder fs (parentP tp)).1 tp (some (FNode.file c))) := by
    apply copy2_ok
    · rw [hpres, hsrc]
    · unfold is_dir at hnd ⊢
      rw [htpuntouched]
      exact hnd
    · exact hne
    · exact hpok
  have hmain : sync_file et src tf wf dst fs =
      (setPath (check_folder fs (parentP tp)).1 tp (some (FNode.file c)), none) := by
    rw [sync_file_created_eq et src tf wf dst fs hkind]
    rw [sync_created_eq src tf wf rel tp fs hrel htp]
    rw [if_neg (by rw [hcfsnd]; simp : ¬ ((check_folder fs (parentP tp)).2).isSome = true)]
    rw [if_pos (by unfold is_file; rw [hpres, hsrc] :
      is_file (check_folder fs (parentP tp)).1 src = true)]
    rw [hcopy]
  refine ⟨hmain, ?_, ?_⟩
  · rw [hmain]
    exact setPath_self _ _ _
  · by_cases hrest : rest = []
    · left; rw [hparent]; exact hrest
    · right
      rw [hmain]
      show is_dir (setPath (check_folder fs (parentP tp)).1 tp (some (FNode.file c)))
        (parentP tp) = true
      have hne2 : parentP tp ≠ tp := by
        rw [hparent, htpeq]
        exact Ne.symm (List.cons_ne_self s rest)
      unfold is_dir
      rw [setPath_ne _ _ _ _ hne2]
      have hthis := hrdir hrest
      unfold is_dir at hthis
      rw [← hparent] at hthis
      exact hthis

/-- Mirror state where the mirror target `/d/b.txt` of the watched file
`/w/b.txt` already exists as a directory. -/
def fsC6 : FS := fun q =>
  if q = ["w"] then some FNode.dir
  else if q = ["b", "w"] then some (FNode.file [7])
  else if q = ["d"] then some FNode.dir
  else if q = ["b", "d"] then some FNode.dir
  else none

/-- C6 counterexample: when the mirror target of a Created file event exists
as a directory, shutil.copy2 copies the file INTO that directory, so
afterwards the mirror target path is still a directory, not a file with the
source's bytes; the bytes land one level deeper. -/
theorem created_file_into_existing_dir_target :
    fsC6 ["b", "w"] = some (FNode.file [7]) ∧
    (sync_file EventType.created ["b", "w"] ["d"] ["w"] [] fsC6).1 ["b", "d"]
      = some FNode.dir ∧
    (sync_file EventType.created ["b", "w"] ["d"] ["w"] [] fsC6).1 ["b", "b", "d"]
      = some (FNode.file [7]) ∧
    (sync_file EventType.created ["b", "w"] ["d"] ["w"] [] fsC6).2 = none := by
  refine ⟨by decide, by decide, by decide, by decide⟩

/-- A clean mirror pair for the C6 witness: `/w/b.txt` holds bytes `[3]`, the
mirror root `/d` exists and the target `/d/b.txt` is absent. -/
def fsW6 : FS := fun q =>
  if q = ["w"] then some FNode.dir
  else if q = ["b", "w"] then some (FNode.file [3])
  else if q = ["d"] then some FNode.dir
  else none

/-- C6 witness: the amended claim instantiated at a Created event for the file
`/w/b.txt`. -/
theorem created_file_event_copies_witness :
    (sync_file EventType.created ["b", "w"] ["d"] ["w"] [] fsW6).1 ["b", "d"]
      = some (FNode.file [3]) ∧
    is_dir (sync_file EventType.created ["b", "w"] ["d"] ["w"] [] fsW6).1
      (parentP ["b", "d"]) = true :=
  have h := created_file_event_copies EventType.created ["b", "w"] ["d"] ["w"] [] ["b"]
    ["b", "d"] fsW6 [3] (Or.inl rfl) (by decide) rfl rfl (by decide) (by decide)
    (by decide) (by decide)
  ⟨h.2.1, h.2.2.resolve_left (by decide)⟩

/-! Computation lemmas for the moved branch. -/

theorem unlink_ok (fs : FS) (p : List String) (c : List Nat)
    (h : fs p = some (FNode.file c)) :
    unlink fs p = Except.ok (setPath fs p none) := by
  unfold unlink
  rw [h]

theorem rmtree_ok (fs : FS) (p : List String) (h : fs p = some FNode.dir) :
    rmtree fs p = Except.ok (fun q => if p <:+ q then none else fs q) := by
  unfold rmtree
  rw [h]

theorem mkdir_ok (fs : FS) (p : List String) (h1 : pexists fs p = false)
    (h2 : parentOk fs p = true) :
    mkdir fs p = Except.ok (setPath fs p (some FNode.dir)) := by
  unfold mkdir
  rw [if_neg (by rw [h1]; simp), if_pos h2]

theorem parentOk_setPath (fs : FS) (p t : List String) (v : Option FNode)
    (h : parentOk fs p = true) (hnd : is_dir fs t = false) :
    parentOk (setPath fs t v) p = true := by
  cases p with
  | nil => exact absurd h (by simp [parentOk])
  | cons s rest =>
    cases rest with
    | nil => rfl
    | cons a b =>
      show is_dir (setPath fs t v) (a :: b) = true
      have hne : (a :: b) ≠ t := by
        intro hcon
        rw [← hcon] at hnd
        have h2 : is_dir fs (a :: b) = true := h
        rw [hnd] at h2
        simp at h2
      unfold is_dir
      rw [setPath_ne _ _ _ _ hne]
      exact h

theorem parentOk_rmtreeState (fs : FS) (p t : List String)
    (h : parentOk fs p = true) (hsub : ¬ t <:+ parentP p) :
    parentOk (fun q => if t <:+ q then none else fs q) p = true := by
  cases p with
  | nil => exact absurd h (by simp [parentOk])
  | cons s rest =>
    cases rest with
    | nil => rfl
    | cons a b =>
      show is_dir (fun q => if t <:+ q then none else fs q) (a :: b) = true
      show (match (if t <:+ (a :: b) then none else fs (a :: b)) with
        | some FNode.dir => true
        | _ => false) = true
      have hsub2 : ¬ t <:+ (a :: b) := hsub
      rw [if_neg hsub2]
      exact h

theorem sync_file_moved_eq (src tf wf dst : List String) (fs : FS) :
    sync_file EventType.moved src tf wf dst fs = sync_moved src tf wf dst fs := rfl

theorem sync_moved_eq (src tf wf dst src_rel dst_rel tpo tpn : List String) (fs : FS)
    (hrelS : relative_to src wf = Except.ok src_rel)
    (hrelD : relative_to dst wf = Except.ok dst_rel)
    (htpo : tpo = joinP tf src_rel)
    (htpn : tpn = joinP tf dst_rel) :
    sync_moved src tf wf dst fs =
      (if pexists fs tpo = true then
        if is_file fs tpo = true then
          match unlink fs tpo with
          | Except.error e => (fs, some e)
          | Except.ok fs1 =>
            match copy_file fs1 dst tpn with
            | Except.ok fs2 => (fs2, none)
            | Except.error e => (fs1, some e)
        else if is_dir fs tpo = true then
          match rmtree fs tpo with
          | Except.error e => (fs, some e)
          | Except.ok fs1 =>
            match mkdir fs1 tpn with
            | Except.ok fs2 => (fs2, none)
            | Except.error e => (fs1, some e)
        else (fs, none)
      else
        if is_file fs tpo = true then
          match copy_file fs dst tpn with
          | Except.ok fs2 => (fs2, none)
          | Except.error e => (fs, some e)
        else if is_dir fs tpo = true then
          match mkdir fs tpn with
          | Except.ok fs2 => (fs2, none)
          | Except.error e => (fs, some e)
        else (fs, none)) := by
  subst htpo
  subst htpn
  unfold sync_moved
  rw [hrelS, hrelD]

/-- C7 amended: for a Moved event whose old mirror target exists. When the old
target is a regular file: provided the source-side destination is a regular
file, the new target is neither the old target, the destination, nor an
existing directory, and the new target's parent can hold a file, processing
removes the old target file and copies the destination's bytes to the new
target, touching nothing else. When the old target is a directory: provided
the new target is absent, its parent can hold an entry and lies outside the
old subtree, processing removes the whole old tree and creates exactly the
single directory entry at the new target, without re-copying any file
contents beneath it. When these provisos fail the copy or creation step
fails after the removal (see the counterexample). -/
theorem moved_existing_old_target (src tf wf dst src_rel dst_rel tpo tpn : List String)
    (fs : FS)
    (hrelS : relative_to src wf = Except.ok src_rel)
    (hrelD : relative_to dst wf = Except.ok dst_rel)
    (htpo : tpo = joinP tf src_rel)
    (htpn : tpn = joinP tf dst_rel) :
    (∀ a c : List Nat,
      fs tpo = some (FNode.file a) →
      fs dst = some (FNode.file c) →
      dst ≠ tpo →
      tpn ≠ tpo →
      tpn ≠ dst →
      is_dir fs tpn = false →
      parentOk fs tpn = true →
      sync_file EventType.moved src tf wf dst fs =
        (setPath (setPath fs tpo none) tpn (some (FNode.file c)), none)) ∧
    (fs tpo = some FNode.dir →
      pexists fs tpn = false →
      parentOk fs tpn = true →
      ¬ tpo <:+ parentP tpn →
      sync_file EventType.moved src tf wf dst fs =
        (setPath (fun q => if tpo <:+ q then none else fs q) tpn (some FNode.dir), none)) := by
  constructor
  · intro a c ha hc hdne htne htnd hnd hpok
    have hex : pexists fs tpo = true := by
      unfold pexists
      rw [ha]
      rfl
    have hisf : is_file fs tpo = true := by
      unfold is_file
      rw [ha]
    have h1 : sync_file EventType.moved src tf wf dst fs =
        match copy_file (setPath fs tpo none) dst tpn with
        | Except.ok fs2 => (fs2, none)
        | Except.error e => (setPath fs tpo none, some e) := by
      rw [sync_file_moved_eq,
        sync_moved_eq src tf wf dst src_rel dst_rel tpo tpn fs hrelS hrelD htpo htpn,
        if_pos hex, if_pos hisf, unlink_ok fs tpo a ha]
    have hcopy : copy_file (setPath fs tpo none) dst tpn =
        Except.ok (setPath (setPath fs tpo none) tpn (some (FNode.file c))) := by
      apply copy2_ok
      · rw [setPath_ne _ _ _ _ hdne]
        exact hc
      · unfold is_dir
        rw [setPath_ne _ _ _ _ htne]
        exact hnd
      · exact htnd
      · apply parentOk_setPath fs tpn tpo none hpok
        unfold is_dir
        rw [ha]
    rw [h1, hcopy]
  · intro hdir hnew hpok hsub
    have hex : pexists fs tpo = true := by
      unfold pexists
      rw [hdir]
      rfl
    have hisf : is_file fs tpo = false := by
      unfold is_file
      rw [hdir]
    have hisd : is_dir fs tpo = true := by
      unfold is_dir
      rw [hdir]
    have h1 : sync_file EventType.moved src tf wf dst fs =
        match mkdir (fun q => if tpo <:+ q then none else fs q) tpn with
        | Except.ok fs2 => (fs2, none)
        | Except.error e => ((fun q => if tpo <:+ q then none else fs q), some e) := by
      rw [sync_file_moved_eq,
        sync_moved_eq src tf wf dst src_rel dst_rel tpo tpn fs hrelS hrelD htpo htpn,
        if_pos hex, if_neg (by rw [hisf]; simp : ¬ is_file fs tpo = true), if_pos hisd,
        rmtree_ok fs tpo hdir]
    have hmk : mkdir (fun q => if tpo <:+ q then none else fs q) tpn =
        Except.ok (setPath (fun q => if tpo <:+ q then none else fs q) tpn
          (some FNode.dir)) := by
      apply mkdir_ok
      · show (Option.isSome (if tpo <:+ tpn then none else fs tpn)) = false
        by_cases hst : tpo <:+ tpn
        · rw [if_pos hst]
          rfl
        · rw [if_neg hst]
          unfold pexists at hnew
          exact hnew
      · exact parentOk_rmtreeState fs tpn tpo hpok hsub
    rw [h1, hmk]

/-- Drifted mirror state for the C7 counterexample: old mirror target `/d/a`
is a file, the moved file now lives at `/w/x/b`, but the mirror-side parent
`/d/x` of the new target does not exist. -/
def fsC7 : FS := fun q =>
  if q = ["w"] then some FNode.dir
  else if q = ["x", "w"] then some FNode.dir
  else if q = ["b", "x", "w"] then some (FNode.file [9])
  else if q = ["d"] then some FNode.dir
  else if q = ["a", "d"] then some (FNode.file [5])
  else none

/-- C7 counterexample: for a Moved event whose old mirror target exists as a
file, processing does not always remove-and-copy: when the parent of the new
mirror target is absent, the old target is removed but the copy fails, so the
new target never appears and an error is raised from sync_file. -/
theorem moved_missing_new_parent_removes_without_copy :
    fsC7 ["a", "d"] = some (FNode.file [5]) ∧
    (sync_file EventType.moved ["a", "w"] ["d"] ["w"] ["b", "x", "w"] fsC7).1 ["a", "d"]
      = none ∧
    (sync_file EventType.moved ["a", "w"] ["d"] ["w"] ["b", "x", "w"] fsC7).1
      ["b", "x", "d"] = none ∧
    (sync_file EventType.moved ["a", "w"] ["d"] ["w"] ["b", "x", "w"] fsC7).2
      = some PyErr.fileNotFound := by
  refine ⟨by decide, by decide, by decide, by decide⟩

/-- Mirror state for the C7 witness: old mirror target `/d/a` holds bytes
`[5]`, the moved file lives at `/w/b` with bytes `[9]`, and the mirror root
`/d` can hold the new target `/d/b`. -/
def fsW7 : FS := fun q =>
  if q = ["w"] then some FNode.dir
  else if q = ["b", "w"] then some (FNode.file [9])
  else if q = ["d"] then some FNode.dir
  else if q = ["a", "d"] then some (FNode.file [5])
  else none

/-- C7 witness: the amended claim instantiated at a Moved event from `/w/a` to
`/w/b`: the old mirror file disappears and the new target holds the
destination's bytes. -/
theorem moved_existing_old_target_witness :
    (sync_file EventType.moved ["a", "w"] ["d"] ["w"] ["b", "w"] fsW7).1 ["a", "d"]
      = none ∧
    (sync_file EventType.moved ["a", "w"] ["d"] ["w"] ["b", "w"] fsW7).1 ["b", "d"]
      = some (FNode.file [9]) := by
  have h := (moved_existing_old_target ["a", "w"] ["d"] ["w"] ["b", "w"] ["a"] ["b"]
    ["a", "d"] ["b", "d"] fsW7 rfl rfl rfl rfl).1 [5] [9] (by decide) (by decide)
    (by decide) (by decide) (by decide) (by decide) (by decide)
  rw [h]
  exact ⟨by decide, by decide⟩

/-! Frame lemmas used to show the moved branch never creates ancestors. -/

theorem setPath_pres_none (fs : FS) (t q : List String) (hq : fs q = none) :
    setPath fs t none q = none := by
  by_cases h : q = t
  · rw [h, setPath_self]
  · rw [setPath_ne _ _ _ _ h]
    exact hq

theorem is_file_some (fs : FS) (p : List String) (h : is_file fs p = true) :
    ∃ c, fs p = some (FNode.file c) := by
  unfold is_file at h
  cases h2 : fs p with
  | none => rw [h2] at h; simp at h
  | some n =>
    cases n with
    | file c => exact ⟨c, rfl⟩
    | dir => rw [h2] at h; simp at h

theorem is_dir_some (fs : FS) (p : List String) (h : is_dir fs p = true) :
    fs p = some FNode.dir := by
  unfold is_dir at h
  cases h2 : fs p with
  | none => rw [h2] at h; simp at h
  | some n =>
    cases n with
    | file c => rw [h2] at h; simp at h
    | dir => rfl

theorem copy2_ok_pres (fs : FS) (src dst : List String) (fs2 : FS) (q : List String)
    (h : copy2 fs src dst = Except.ok fs2)
    (hq : fs q = none) (hne1 : q ≠ dst) (hlen : q.length ≤ dst.length) :
    fs2 q = none := by
  have hqw : q ≠ copy2_dst fs src dst := copy2_dst_ne fs src dst q hne1 hlen
  simp only [copy2] at h
  by_cases h1 : copy2_dst fs src dst = src ∧ pexists fs src = true
  · rw [if_pos h1] at h
    exact Except.noConfusion h
  · rw [if_neg h1] at h
    cases hsrc : fs src with
    | none =>
      rw [hsrc] at h
      exact Except.noConfusion h
    | some n =>
      rw [hsrc] at h
      cases n with
      | dir => exact Except.noConfusion h
      | file c =>
        have hh2 : (if is_dir fs (copy2_dst fs src dst) = true then
            Except.error PyErr.isADirectory
            else if parentOk fs (copy2_dst fs src dst) = true then
              Except.ok (setPath fs (copy2_dst fs src dst) (some (FNode.file c)))
            else Except.error PyErr.fileNotFound) = Except.ok fs2 := h
        by_cases h2 : is_dir fs (copy2_dst fs src dst) = true
        · rw [if_pos h2] at hh2
          exact Except.noConfusion hh2
        · rw [if_neg h2] at hh2
          by_cases h3 : parentOk fs (copy2_dst fs src dst) = true
          · rw [if_pos h3] at hh2
            injection hh2 with h4
            rw [← h4]
            rw [setPath_ne _ _ _ _ hqw]
            exact hq
          · rw [if_neg h3] at hh2
            exact Except.noConfusion hh2

theorem mkdir_ok_shape (fs : FS) (p : List String) (fs2 : FS)
    (h : mkdir fs p = Except.ok fs2) : fs2 = setPath fs p (some FNode.dir) := by
  unfold mkdir at h
  by_cases h1 : pexists fs p = true
  · rw [if_pos h1] at h
    exact Except.noConfusion h
  · rw [if_neg h1] at h
    by_cases h2 : parentOk fs p = true
    · rw [if_pos h2] at h
      injection h with h3
      exact h3.symm
    · rw [if_neg h2] at h
      exact Except.noConfusion h

theorem copy2_err (fs : FS) (src dst : List String)
    (hnd : is_dir fs dst = false)
    (hpar : parentOk fs dst = false) :
    ∃ e, copy2 fs src dst = Except.error e := by
  simp only [copy2]
  rw [copy2_dst_not_dir fs src dst hnd]
  by_cases hsame : dst = src ∧ pexists fs src = true
  · rw [if_pos hsame]
    exact ⟨_, rfl⟩
  · rw [if_neg hsame]
    cases hsrc : fs src with
    | none => exact ⟨_, rfl⟩
    | some n =>
      cases n with
      | dir => exact ⟨_, rfl⟩
      | file c =>
        show ∃ e, (if is_dir fs dst = true then Except.error PyErr.isADirectory
          else if parentOk fs dst = true then
            Except.ok (setPath fs dst (some (FNode.file c)))
          else Except.error PyErr.fileNotFound) = Except.error e
        rw [if_neg (by rw [hnd]; simp : ¬ is_dir fs dst = true),
          if_neg (by rw [hpar]; simp : ¬ parentOk fs dst = true)]
        exact ⟨_, rfl⟩

theorem mkdir_err (fs : FS) (p : List String)
    (hpar : parentOk fs p = false ∨ pexists fs p = true) :
    ∃ e, mkdir fs p = Except.error e := by
  unfold mkdir
  by_cases he : pexists fs p = true
  · rw [if_pos he]
    exact ⟨_, rfl⟩
  · rw [if_neg he]
    rcases hpar with h | h
    · rw [if_neg (by rw [h]; simp : ¬ parentOk fs p = true)]
      exact ⟨_, rfl⟩
    · exact absurd h he

/-- C10 amended: processing a Moved event never creates a missing ancestor of
the new mirror target: any strict ancestor of the new target that was absent
is still absent afterwards, in every mirror state. When the old mirror target
exists (as a file, with the new target not an existing directory, or as a
directory) and the parent of the new target is absent, the copy or directory
creation fails with an error. When the old mirror target is absent, however,
the stale branch is dead code: nothing is attempted and no error is raised
(see the counterexample). -/
theorem moved_never_creates_new_target_ancestors
    (src tf wf dst src_rel dst_rel tpo tpn : List String) (fs : FS)
    (hrelS : relative_to src wf = Except.ok src_rel)
    (hrelD : relative_to dst wf = Except.ok dst_rel)
    (htpo : tpo = joinP tf src_rel)
    (htpn : tpn = joinP tf dst_rel) :
    (∀ q, q ≠ tpn → q <:+ tpn → fs q = none →
      (sync_file EventType.moved src tf wf dst fs).1 q = none) ∧
    (is_file fs tpo = true → fs (parentP tpn) = none → parentP tpn ≠ [] →
      is_dir fs tpn = false →
      ((sync_file EventType.moved src tf wf dst fs).2).isSome = true) ∧
    (fs tpo = some FNode.dir → fs (parentP tpn) = none → parentP tpn ≠ [] →
      ((sync_file EventType.moved src tf wf dst fs).2).isSome = true) := by
  have hmeq := sync_moved_eq src tf wf dst src_rel dst_rel tpo tpn fs hrelS hrelD htpo htpn
  -- splitting the new target into head and ancestors when its parent is nonempty
  have hsplit : ∀ p : List String, parentP p ≠ [] → ∃ x a b, p = x :: a :: b := by
    intro p hp
    cases p with
    | nil => exact absurd rfl hp
    | cons x rest =>
      cases rest with
      | nil => exact absurd rfl hp
      | cons a b => exact ⟨x, a, b, rfl⟩
  refine ⟨?_, ?_, ?_⟩
  · intro q hqn hqsub hq
    rw [sync_file_moved_eq, hmeq]
    have hlen : q.length ≤ tpn.length := hqsub.length_le
    by_cases hex : pexists fs tpo = true
    · by_cases hf : is_file fs tpo = true
      · obtain ⟨a, ha⟩ := is_file_some fs tpo hf
        rw [if_pos hex, if_pos hf, unlink_ok fs tpo a ha]
        show (match copy_file (setPath fs tpo none) dst tpn with
          | Except.ok fs2 => (fs2, none)
          | Except.error e => (setPath fs tpo none, some e)).1 q = none
        cases hcp : copy_file (setPath fs tpo none) dst tpn with
        | ok fs2 =>
          show fs2 q = none
          exact copy2_ok_pres (setPath fs tpo none) dst tpn fs2 q hcp
            (setPath_pres_none fs tpo q hq) hqn hlen
        | error e =>
          show setPath fs tpo none q = none
          exact setPath_pres_none fs tpo q hq
      · by_cases hd : is_dir fs tpo = true
        · rw [if_pos hex, if_neg hf, if_pos hd, rmtree_ok fs tpo (is_dir_some fs tpo hd)]
          have hrmq : (if tpo <:+ q then none else fs q) = none := by
            by_cases hs : tpo <:+ q
            · rw [if_pos hs]
            · rw [if_neg hs]
              exact hq
          show (match mkdir (fun r => if tpo <:+ r then none else fs r) tpn with
            | Except.ok fs2 => (fs2, none)
            | Except.error e => ((fun r => if tpo <:+ r then none else fs r), some e)).1 q
              = none
          cases hmk : mkdir (fun r => if tpo <:+ r then none else fs r) tpn with
          | ok fs2 =>
            show fs2 q = none
            rw [mkdir_ok_shape _ _ _ hmk, setPath_ne _ _ _ _ hqn]
            exact hrmq
          | error e =>
            show (if tpo <:+ q then none else fs q) = none
            exact hrmq
        · rw [if_pos hex, if_neg hf, if_neg hd]
          exact hq
    · have hf : ¬ is_file fs tpo = true := fun hcon => hex (is_file_pexists fs tpo hcon)
      have hd : ¬ is_dir fs tpo = true := fun hcon => hex (is_dir_pexists fs tpo hcon)
      rw [if_neg hex, if_neg hf, if_neg hd]
      exact hq
  · intro hf hpar hparne hnd
    obtain ⟨a, ha⟩ := is_file_some fs tpo hf
    obtain ⟨x, pa, pb, htpneq⟩ := hsplit tpn hparne
    have hex : pexists fs tpo = true := is_file_pexists fs tpo hf
    rw [sync_file_moved_eq, hmeq, if_pos hex, if_pos hf, unlink_ok fs tpo a ha]
    have hnd2 : is_dir (setPath fs tpo none) tpn = false := by
      by_cases h : tpn = tpo
      · unfold is_dir
        rw [h, setPath_self]
      · unfold is_dir at hnd ⊢
        rw [setPath_ne _ _ _ _ h]
        exact hnd
    have hpar2 : parentOk (setPath fs tpo none) tpn = false := by
      rw [htpneq]
      show is_dir (setPath fs tpo none) (pa :: pb) = false
      have hppeq : parentP tpn = pa :: pb := by rw [htpneq]; rfl
      by_cases h : (pa :: pb) = tpo
      · unfold is_dir
        rw [h, setPath_self]
      · unfold is_dir
        rw [setPath_ne _ _ _ _ h, ← hppeq, hpar]
    obtain ⟨e, herr⟩ := copy2_err (setPath fs tpo none) dst tpn hnd2 hpar2
    have herr2 : copy_file (setPath fs tpo none) dst tpn = Except.error e := herr
    show (match copy_file (setPath fs tpo none) dst tpn with
      | Except.ok fs2 => (fs2, none)
      | Except.error e => (setPath fs tpo none, some e)).2.isSome = true
    rw [herr2]
    rfl
  · intro hdir hpar hparne
    obtain ⟨x, pa, pb, htpneq⟩ := hsplit tpn hparne
    have hex : pexists fs tpo = true := by
      unfold pexists
      rw [hdir]
      rfl
    have hf : is_file fs tpo = false := by
      unfold is_file
      rw [hdir]
    have hd : is_dir fs tpo = true := by
      unfold is_dir
      rw [hdir]
    rw [sync_file_moved_eq, hmeq, if_pos hex,
      if_neg (by rw [hf]; simp : ¬ is_file fs tpo = true), if_pos hd,
      rmtree_ok fs tpo hdir]
    have hpar2 : parentOk (fun r => if tpo <:+ r then none else fs r) tpn = false := by
      rw [htpneq]
      show is_dir (fun r => if tpo <:+ r then none else fs r) (pa :: pb) = false
      show (match (if tpo <:+ (pa :: pb) then none else fs (pa :: pb)) with
        | some FNode.dir => true
        | _ => false) = false
      have hppeq : parentP tpn = pa :: pb := by rw [htpneq]; rfl
      by_cases hs : tpo <:+ (pa :: pb)
      · rw [if_pos hs]
      · rw [if_neg hs, ← hppeq, hpar]
    obtain ⟨e, herr⟩ := mkdir_err (fun r => if tpo <:+ r then none else fs r) tpn
      (Or.inl hpar2)
    show (match mkdir (fun r => if tpo <:+ r then none else fs r) tpn with
      | Except.ok fs2 => (fs2, none)
      | Except.error e => ((fun r => if tpo <:+ r then none else fs r), some e)).2.isSome
        = true
    rw [herr]
    rfl

/-- Mirror state for the C10 counterexample: old mirror target `/d/a` and the
new target's parent `/d/x` are both absent. -/
def fsX10 : FS := fun q =>
  if q = ["w"] then some FNode.dir
  else if q = ["x", "w"] then some FNode.dir
  else if q = ["b", "x", "w"] then some (FNode.file [2])
  else if q = ["d"] then some FNode.dir
  else none

/-- C10 counterexample: when the old mirror target of a Moved event is absent
and the parent of the new target is also absent, processing raises no error at
all (instead of the claimed failure of the copy): the stale branch is dead
code, so it neither creates the missing parents nor attempts the copy. -/
theorem moved_absent_old_no_error_no_creation :
    fsX10 ["a", "d"] = none ∧
    fsX10 ["x", "d"] = none ∧
    (sync_file EventType.moved ["a", "w"] ["d"] ["w"] ["b", "x", "w"] fsX10).2 = none ∧
    (sync_file EventType.moved ["a", "w"] ["d"] ["w"] ["b", "x", "w"] fsX10).1 ["x", "d"]
      = none := by
  refine ⟨by decide, by decide, by decide, by decide⟩

/-- Mirror state for the C10 witness: old mirror target `/d/a` is a file and
the parent `/d/x` of the new target `/d/x/b` is absent. -/
def fsW10 : FS := fun q =>
  if q = ["w"] then some FNode.dir
  else if q = ["x", "w"] then some FNode.dir
  else if q = ["b", "x", "w"] then some (FNode.file [9])
  else if q = ["d"] then some FNode.dir
  else if q = ["a", "d"] then some (FNode.file [5])
  else none

/-- C10 witness: the amended claim instantiated at a Moved event whose old
mirror target is a file and whose new target's parent is absent: processing
raises an error instead of creating the missing parent. -/
theorem moved_never_creates_new_target_ancestors_witness :
    ((sync_file EventType.moved ["a", "w"] ["d"] ["w"] ["b", "x", "w"] fsW10).2).isSome
      = true :=
  (moved_never_creates_new_target_ancestors ["a", "w"] ["d"] ["w"] ["b", "x", "w"]
    ["a"] ["b", "x"] ["a", "d"] ["b", "x", "d"] fsW10 rfl rfl rfl rfl).2.1
    (by decide) (by decide) (by decide) (by decide)

/-! Support lemmas for idempotence of the sync routines. -/

theorem bool_eq_false {b : Bool} (h : ¬ b = true) : b = false := by
  cases b with
  | false => rfl
  | true => exact absurd rfl h

theorem setPath_override (fs : FS) (p : List String) (v1 v2 : Option FNode) :
    setPath (setPath fs p v1) p v2 = setPath fs p v2 := by
  funext q
  by_cases h : q = p
  · rw [h, setPath_self, setPath_self]
  · rw [setPath_ne _ _ _ _ h, setPath_ne _ _ _ _ h, setPath_ne _ _ _ _ h]

theorem copy2_dst_stable (fs : FS) (src dst : List String) (c : List Nat) :
    copy2_dst (setPath fs (copy2_dst fs src dst) (some (FNode.file c))) src dst =
      copy2_dst fs src dst := by
  by_cases hd : is_dir fs dst = true
  · cases src with
    | nil =>
      have h1 : copy2_dst fs [] dst = dst := by
        unfold copy2_dst
        rw [if_pos hd]
      rw [h1]
      have h2 : is_dir (setPath fs dst (some (FNode.file c))) dst = false := by
        unfold is_dir
        rw [setPath_self]
      exact copy2_dst_not_dir _ _ _ h2
    | cons s r =>
      have h1 : copy2_dst fs (s :: r) dst = s :: dst := by
        unfold copy2_dst
        rw [if_pos hd]
      rw [h1]
      have h2 : is_dir (setPath fs (s :: dst) (some (FNode.file c))) dst = true := by
        unfold is_dir
        rw [setPath_ne _ _ _ _ (Ne.symm (List.cons_ne_self s dst))]
        exact hd
      unfold copy2_dst
      rw [if_pos h2]
  · have h1 : copy2_dst fs src dst = dst := copy2_dst_not_dir fs src dst (bool_eq_false hd)
    rw [h1]
    have h2 : is_dir (setPath fs dst (some (FNode.file c))) dst = false := by
      unfold is_dir
      rw [setPath_self]
    exact copy2_dst_not_dir _ _ _ h2

theorem copy2_ok_inv (fs : FS) (src dst : List String) (fs2 : FS)
    (h : copy2 fs src dst = Except.ok fs2) :
    ∃ c, fs src = some (FNode.file c) ∧
      fs2 = setPath fs (copy2_dst fs src dst) (some (FNode.file c)) ∧
      copy2_dst fs src dst ≠ src ∧
      is_dir fs (copy2_dst fs src dst) = false ∧
      parentOk fs (copy2_dst fs src dst) = true := by
  simp only [copy2] at h
  by_cases h1 : copy2_dst fs src dst = src ∧ pexists fs src = true
  · rw [if_pos h1] at h
    exact Except.noConfusion h
  · rw [if_neg h1] at h
    cases hsrc : fs src with
    | none =>
      rw [hsrc] at h
      exact Except.noConfusion h
    | some n =>
      rw [hsrc] at h
      cases n with
      | dir => exact Except.noConfusion h
      | file c =>
        have hh2 : (if is_dir fs (copy2_dst fs src dst) = true then
            Except.error PyErr.isADirectory
            else if parentOk fs (copy2_dst fs src dst) = true then
              Except.ok (setPath fs (copy2_dst fs src dst) (some (FNode.file c)))
            else Except.error PyErr.fileNotFound) = Except.ok fs2 := h
        by_cases h2 : is_dir fs (copy2_dst fs src dst) = true
        · rw [if_pos h2] at hh2
          exact Except.noConfusion hh2
        · rw [if_neg h2] at hh2
          by_cases h3 : parentOk fs (copy2_dst fs src dst) = true
          · rw [if_pos h3] at hh2
            injection hh2 with h4
            refine ⟨c, rfl, h4.symm, ?_, bool_eq_false h2, h3⟩
            intro hcon
            exact h1 ⟨hcon, by unfold pexists; rw [hsrc]; rfl⟩
          · rw [if_neg h3] at hh2
            exact Except.noConfusion hh2

theorem copy2_idem (fs : FS) (src dst : List String) (fs2 : FS)
    (h : copy2 fs src dst = Except.ok fs2) :
    copy2 fs2 src dst = Except.ok fs2 := by
  obtain ⟨c, hsrc, hshape, hwne, hwnd, hwpar⟩ := copy2_ok_inv fs src dst fs2 h
  have hstable : copy2_dst fs2 src dst = copy2_dst fs src dst := by
    rw [hshape]
    exact copy2_dst_stable fs src dst c
  have hsrc2 : fs2 src = some (FNode.file c) := by
    rw [hshape, setPath_ne _ _ _ _ (Ne.symm hwne)]
    exact hsrc
  have hwnd2 : is_dir fs2 (copy2_dst fs src dst) = false := by
    rw [hshape]
    unfold is_dir
    rw [setPath_self]
  have hwpar2 : parentOk fs2 (copy2_dst fs src dst) = true := by
    rw [hshape]
    exact parentOk_setPath fs (copy2_dst fs src dst) (copy2_dst fs src dst) _ hwpar hwnd
  simp only [copy2]
  rw [hstable]
  rw [if_neg (fun hcon => hwne hcon.1), hsrc2]
  show (if is_dir fs2 (copy2_dst fs src dst) = true then Except.error PyErr.isADirectory
    else if parentOk fs2 (copy2_dst fs src dst) = true then
      Except.ok (setPath fs2 (copy2_dst fs src dst) (some (FNode.file c)))
    else Except.error PyErr.fileNotFound) = Except.ok fs2
  rw [if_neg (by rw [hwnd2]; simp : ¬ is_dir fs2 (copy2_dst fs src dst) = true),
    if_pos hwpar2, hshape, setPath_override]

theorem check_folder_ok_exists (fs : FS) (a : String) (b : List String)
    (hok : (check_folder fs (a :: b)).2 = none) :
    pexists (check_folder fs (a :: b)).1 (a :: b) = true := by
  by_cases hp : pexists fs (a :: b) = true
  · rw [check_folder_skip fs (a :: b) hp]
    exact hp
  · have hcf : check_folder fs (a :: b) = makedirs fs (a :: b) := by
      unfold check_folder
      rw [if_neg hp]
    rw [hcf] at hok ⊢
    exact is_dir_pexists _ _ (makedirs_ok_dir fs a b hok)

theorem check_folder_after_set (fs : FS) (t w : List String) (v : FNode)
    (hok : (check_folder fs t).2 = none) :
    check_folder (setPath (check_folder fs t).1 w (some v)) t =
      (setPath (check_folder fs t).1 w (some v), none) := by
  cases t with
  | nil => exact check_folder_nil _
  | cons a b =>
    have hp1 : pexists (check_folder fs (a :: b)).1 (a :: b) = true :=
      check_folder_ok_exists fs a b hok
    apply check_folder_skip
    by_cases h : (a :: b) = w
    · unfold pexists
      rw [h, setPath_self]
      rfl
    · unfold pexists at hp1 ⊢
      rw [setPath_ne _ _ _ _ h]
      exact hp1

theorem sync_created_inner (src tf wf rel tp : List String) (g : FS)
    (hrel : relative_to src wf = Except.ok rel) (htp : tp = joinP tf rel)
    (hcf : check_folder g (parentP tp) = (g, none)) :
    sync_created src tf wf g =
      (if is_file g src = true then
        match copy_file g src tp with
        | Except.ok fs2 => (fs2, none)
        | Except.error e => (g, some e)
      else if is_dir g tp = true then
        if pexists g tp = true then (g, none)
        else
          match mkdir g tp with
          | Except.ok fs2 => (fs2, none)
          | Except.error e => (g, some e)
      else (g, none)) := by
  rw [sync_created_eq src tf wf rel tp g hrel htp, hcf]
  rw [if_neg (by simp : ¬ (((g, (none : Option PyErr))).2).isSome = true)]

theorem sync_file_deleted_eq (src tf wf dst : List String) (fs : FS) :
    sync_file EventType.deleted src tf wf dst fs = sync_deleted src tf wf fs := rfl

theorem sync_deleted_eq (src tf wf rel tp : List String) (fs : FS)
    (hrel : relative_to src wf = Except.ok rel) (htp : tp = joinP tf rel) :
    sync_deleted src tf wf fs =
      (if pexists fs tp = true then
        if is_file fs tp = true then
          match unlink fs tp with
          | Except.ok fs1 => (fs1, none)
          | Except.error e => (fs, some e)
        else if is_dir fs tp = true then
          match rmtree fs tp with
          | Except.ok fs1 => (fs1, none)
          | Except.error e => (fs, some e)
        else (fs, none)
      else (fs, none)) := by
  subst htp
  unfold sync_deleted
  rw [hrel]

theorem sync_deleted_idem (src tf wf : List String) (fs : FS) :
    (sync_deleted src tf wf ((sync_deleted src tf wf fs).1)).1 =
      (sync_deleted src tf wf fs).1 := by
  cases hrel : relative_to src wf with
  | error e =>
    have h1 : ∀ g : FS, sync_deleted src tf wf g = (g, some e) := by
      intro g
      unfold sync_deleted
      rw [hrel]
    simp [h1]
  | ok rel =>
    set tp := joinP tf rel with htp
    have hmeq := fun g : FS => sync_deleted_eq src tf wf rel tp g hrel htp
    by_cases hex : pexists fs tp = true
    · by_cases hf : is_file fs tp = true
      · obtain ⟨c, hc⟩ := is_file_some fs tp hf
        have h1 : sync_deleted src tf wf fs = (setPath fs tp none, none) := by
          rw [hmeq fs, if_pos hex, if_pos hf, unlink_ok fs tp c hc]
        rw [h1]
        show (sync_deleted src tf wf (setPath fs tp none)).1 = setPath fs tp none
        have h2 : pexists (setPath fs tp none) tp = false := by
          unfold pexists
          rw [setPath_self]
          rfl
        rw [hmeq _, if_neg (by rw [h2]; simp : ¬ pexists (setPath fs tp none) tp = true)]
      · by_cases hd : is_dir fs tp = true
        · have hdeq := is_dir_some fs tp hd
          have h1 : sync_deleted src tf wf fs =
              ((fun q => if tp <:+ q then none else fs q), none) := by
            rw [hmeq fs, if_pos hex, if_neg hf, if_pos hd, rmtree_ok fs tp hdeq]
          rw [h1]
          show (sync_deleted src tf wf (fun q => if tp <:+ q then none else fs q)).1 =
            (fun q => if tp <:+ q then none else fs q)
          have h2 : pexists (fun q => if tp <:+ q then none else fs q) tp = false := by
            show (Option.isSome (if tp <:+ tp then none else fs tp)) = false
            rw [if_pos List.suffix_rfl]
            rfl
          rw [hmeq _, if_neg (by rw [h2]; simp :
            ¬ pexists (fun q => if tp <:+ q then none else fs q) tp = true)]
        · exact absurd (node_dir_of_not_file fs tp hex (bool_eq_false hf)) hd
    · have h1 : sync_deleted src tf wf fs = (fs, none) := by
        rw [hmeq fs, if_neg hex]
      rw [h1]
      show (sync_deleted src tf wf fs).1 = fs
      rw [h1]

theorem sync_created_idem (src tf wf : List String) (fs : FS) :
    (sync_created src tf wf ((sync_created src tf wf fs).1)).1 =
      (sync_created src tf wf fs).1 := by
  cases hrel : relative_to src wf with
  | error e =>
    have h1 : ∀ g : FS, sync_created src tf wf g = (g, some e) := by
      intro g
      unfold sync_created
      rw [hrel]
    simp [h1]
  | ok rel =>
    set tp := joinP tf rel with htp
    by_cases hsnd : ((check_folder fs (parentP tp)).2).isSome = true
    · have h1 : sync_created src tf wf fs = check_folder fs (parentP tp) := by
        rw [sync_created_eq src tf wf rel tp fs hrel htp, if_pos hsnd]
      rw [h1, sync_created_eq src tf wf rel tp _ hrel htp,
        check_folder_idem fs (parentP tp), if_pos hsnd]
    · have hsnd0 : (check_folder fs (parentP tp)).2 = none :=
        Option.not_isSome_iff_eq_none.mp hsnd
      have hcfi : check_folder (check_folder fs (parentP tp)).1 (parentP tp) =
          ((check_folder fs (parentP tp)).1, none) := by
        rw [check_folder_idem fs (parentP tp), ← hsnd0]
      by_cases hf : is_file (check_folder fs (parentP tp)).1 src = true
      · cases hcp : copy_file (check_folder fs (parentP tp)).1 src tp with
        | ok fs2 =>
          have h1 : (sync_created src tf wf fs).1 = fs2 := by
            rw [sync_created_eq src tf wf rel tp fs hrel htp, if_neg hsnd]
            show (if is_file (check_folder fs (parentP tp)).1 src = true then
                match copy_file (check_folder fs (parentP tp)).1 src tp with
                | Except.ok fs2 => (fs2, none)
                | Except.error e => ((check_folder fs (parentP tp)).1, some e)
              else if is_dir (check_folder fs (parentP tp)).1 tp = true then
                if pexists (check_folder fs (parentP tp)).1 tp = true then
                  ((check_folder fs (parentP tp)).1, none)
                else
                  match mkdir (check_folder fs (parentP tp)).1 tp with
                  | Except.ok fs2 => (fs2, none)
                  | Except.error e => ((check_folder fs (parentP tp)).1, some e)
              else ((check_folder fs (parentP tp)).1, none)).1 = fs2
            rw [if_pos hf, hcp]
          rw [h1]
          obtain ⟨c, hsrc1, hshape, hwne, hwnd, hwpar⟩ :=
            copy2_ok_inv (check_folder fs (parentP tp)).1 src tp fs2 hcp
          have hcf2 : check_folder fs2 (parentP tp) = (fs2, none) := by
            rw [hshape]
            exact check_folder_after_set fs (parentP tp)
              (copy2_dst (check_folder fs (parentP tp)).1 src tp) (FNode.file c) hsnd0
          rw [sync_created_inner src tf wf rel tp fs2 hrel htp hcf2]
          have hf2 : is_file fs2 src = true := by
            unfold is_file
            rw [hshape, setPath_ne _ _ _ _ (Ne.symm hwne), hsrc1]
          rw [if_pos hf2]
          have hcp2 : copy_file fs2 src tp = Except.ok fs2 :=
            copy2_idem (check_folder fs (parentP tp)).1 src tp fs2 hcp
          rw [hcp2]
        | error e =>
          have h1 : (sync_created src tf wf fs).1 = (check_folder fs (parentP tp)).1 := by
            rw [sync_created_eq src tf wf rel tp fs hrel htp, if_neg hsnd]
            show (if is_file (check_folder fs (parentP tp)).1 src = true then
                match copy_file (check_folder fs (parentP tp)).1 src tp with
                | Except.ok fs2 => (fs2, none)
                | Except.error e => ((check_folder fs (parentP tp)).1, some e)
              else if is_dir (check_folder fs (parentP tp)).1 tp = true then
                if pexists (check_folder fs (parentP tp)).1 tp = true then
                  ((check_folder fs (parentP tp)).1, none)
                else
                  match mkdir (check_folder fs (parentP tp)).1 tp with
                  | Except.ok fs2 => (fs2, none)
                  | Except.error e => ((check_folder fs (parentP tp)).1, some e)
              else ((check_folder fs (parentP tp)).1, none)).1 =
              (check_folder fs (parentP tp)).1
            rw [if_pos hf, hcp]
          rw [h1]
          rw [sync_created_inner src tf wf rel tp _ hrel htp hcfi]
          rw [if_pos hf, hcp]
      · have hres : sync_created src tf wf fs = ((check_folder fs (parentP tp)).1, none) := by
          rw [sync_created_eq src tf wf rel tp fs hrel htp, if_neg hsnd]
          show (if is_file (check_folder fs (parentP tp)).1 src = true then
              match copy_file (check_folder fs (parentP tp)).1 src tp with
              | Except.ok fs2 => (fs2, none)
              | Except.error e => ((check_folder fs (parentP tp)).1, some e)
            else if is_dir (check_folder fs (parentP tp)).1 tp = true then
              if pexists (check_folder fs (parentP tp)).1 tp = true then
                ((check_folder fs (parentP tp)).1, none)
              else
                match mkdir (check_folder fs (parentP tp)).1 tp with
                | Except.ok fs2 => (fs2, none)
                | Except.error e => ((check_folder fs (parentP tp)).1, some e)
            else ((check_folder fs (parentP tp)).1, none)) =
            ((check_folder fs (parentP tp)).1, none)
          rw [if_neg hf]
          by_cases hd : is_dir (check_folder fs (parentP tp)).1 tp = true
          · rw [if_pos hd, if_pos (is_dir_pexists _ _ hd)]
          · rw [if_neg hd]
        rw [hres]
        show (sync_created src tf wf (check_folder fs (parentP tp)).1).1 =
          (check_folder fs (parentP tp)).1
        rw [sync_created_inner src tf wf rel tp _ hrel htp hcfi]
        rw [if_neg hf]
        by_cases hd : is_dir (check_folder fs (parentP tp)).1 tp = true
        · rw [if_pos hd, if_pos (is_dir_pexists _ _ hd)]
        · rw [if_neg hd]

theorem sync_moved_idem (src tf wf dst : List String) (fs : FS) :
    (sync_moved src tf wf dst ((sync_moved src tf wf dst fs).1)).1 =
      (sync_moved src tf wf dst fs).1 := by
  cases hrelS : relative_to src wf with
  | error e =>
    have h1 : ∀ g : FS, sync_moved src tf wf dst g = (g, some e) := by
      intro g
      unfold sync_moved
      rw [hrelS]
    simp [h1]
  | ok src_rel =>
    cases hrelD : relative_to dst wf with
    | error e =>
      have h1 : ∀ g : FS, sync_moved src tf wf dst g = (g, some e) := by
        intro g
        unfold sync_moved
        rw [hrelS, hrelD]
      simp [h1]
    | ok dst_rel =>
      set tpo := joinP tf src_rel with htpo
      set tpn := joinP tf dst_rel with htpn
      have hmeq := fun g : FS =>
        sync_moved_eq src tf wf dst src_rel dst_rel tpo tpn g hrelS hrelD htpo htpn
      by_cases hex : pexists fs tpo = true
      · by_cases hf : is_file fs tpo = true
        · obtain ⟨a, ha⟩ := is_file_some fs tpo hf
          cases hcp : copy_file (setPath fs tpo none) dst tpn with
          | ok fs2 =>
            have h1 : (sync_moved src tf wf dst fs).1 = fs2 := by
              rw [hmeq fs, if_pos hex, if_pos hf, unlink_ok fs tpo a ha]
              show (match copy_file (setPath fs tpo none) dst tpn with
                | Except.ok fs2 => (fs2, none)
                | Except.error e => (setPath fs tpo none, some e)).1 = fs2
              rw [hcp]
            rw [h1]
            obtain ⟨c, hsrc2, hshape, hwne, hwnd, hwpar⟩ :=
              copy2_ok_inv (setPath fs tpo none) dst tpn fs2 hcp
            by_cases hwt : copy2_dst (setPath fs tpo none) dst tpn = tpo
            · have hftpo : fs2 tpo = some (FNode.file c) := by
                rw [hshape, hwt, setPath_self]
              have hue : setPath fs2 tpo none = setPath fs tpo none := by
                rw [hshape, hwt, setPath_override, setPath_override]
              rw [hmeq fs2,
                if_pos (show pexists fs2 tpo = true by unfold pexists; rw [hftpo]; rfl),
                if_pos (show is_file fs2 tpo = true by unfold is_file; rw [hftpo]),
                unlink_ok fs2 tpo c hftpo]
              show (match copy_file (setPath fs2 tpo none) dst tpn with
                | Except.ok fs3 => (fs3, none)
                | Except.error e => (setPath fs2 tpo none, some e)).1 = fs2
              rw [hue, hcp]
            · have hntpo : fs2 tpo = none := by
                rw [hshape, setPath_ne _ _ _ _ (fun hcon => hwt hcon.symm), setPath_self]
              rw [hmeq fs2,
                if_neg (show ¬ pexists fs2 tpo = true by
                  unfold pexists; rw [hntpo]; simp),
                if_neg (show ¬ is_file fs2 tpo = true by
                  unfold is_file; rw [hntpo]; simp),
                if_neg (show ¬ is_dir fs2 tpo = true by
                  unfold is_dir; rw [hntpo]; simp)]
          | error e =>
            have h1 : (sync_moved src tf wf dst fs).1 = setPath fs tpo none := by
              rw [hmeq fs, if_pos hex, if_pos hf, unlink_ok fs tpo a ha]
              show (match copy_file (setPath fs tpo none) dst tpn with
                | Except.ok fs2 => (fs2, none)
                | Except.error e => (setPath fs tpo none, some e)).1 = setPath fs tpo none
              rw [hcp]
            rw [h1]
            have hntpo : setPath fs tpo none tpo = none := setPath_self _ _ _
            rw [hmeq _,
              if_neg (show ¬ pexists (setPath fs tpo none) tpo = true by
                unfold pexists; rw [hntpo]; simp),
              if_neg (show ¬ is_file (setPath fs tpo none) tpo = true by
                unfold is_file; rw [hntpo]; simp),
              if_neg (show ¬ is_dir (setPath fs tpo none) tpo = true by
                unfold is_dir; rw [hntpo]; simp)]
        · by_cases hd : is_dir fs tpo = true
          · have hdeq := is_dir_some fs tpo hd
            cases hmk : mkdir (fun q => if tpo <:+ q then none else fs q) tpn with
            | ok fs2 =>
              have h1 : (sync_moved src tf wf dst fs).1 = fs2 := by
                rw [hmeq fs, if_pos hex, if_neg hf, if_pos hd, rmtree_ok fs tpo hdeq]
                show (match mkdir (fun q => if tpo <:+ q then none else fs q) tpn with
                  | Except.ok fs2 => (fs2, none)
                  | Except.error e =>
                    ((fun q => if tpo <:+ q then none else fs q), some e)).1 = fs2
                rw [hmk]
              rw [h1]
              have hshape := mkdir_ok_shape _ _ _ hmk
              by_cases hnt : tpn = tpo
              · have hdir2 : fs2 tpo = some FNode.dir := by
                  rw [hshape, ← hnt, setPath_self]
                have hr2 : (fun q => if tpo <:+ q then none else fs2 q) =
                    (fun q => if tpo <:+ q then none else fs q) := by
                  funext q
                  by_cases hs : tpo <:+ q
                  · rw [if_pos hs, if_pos hs]
                  · rw [if_neg hs, if_neg hs, hshape,
                      setPath_ne _ _ _ _ (fun hcon => hs (by rw [hcon, hnt]))]
                    show (if tpo <:+ q then none else fs q) = fs q
                    rw [if_neg hs]
                rw [hmeq fs2,
                  if_pos (show pexists fs2 tpo = true by unfold pexists; rw [hdir2]; rfl),
                  if_neg (show ¬ is_file fs2 tpo = true by
                    unfold is_file; rw [hdir2]; simp),
                  if_pos (show is_dir fs2 tpo = true by unfold is_dir; rw [hdir2]),
                  rmtree_ok fs2 tpo hdir2]
                show (match mkdir (fun q => if tpo <:+ q then none else fs2 q) tpn with
                  | Except.ok fs3 => (fs3, none)
                  | Except.error e =>
                    ((fun q => if tpo <:+ q then none else fs2 q), some e)).1 = fs2
                rw [hr2, hmk]
              · have hntpo : fs2 tpo = none := by
                  rw [hshape, setPath_ne _ _ _ _ (fun hcon => hnt hcon.symm)]
                  show (if tpo <:+ tpo then none else fs tpo) = none
                  rw [if_pos List.suffix_rfl]
                rw [hmeq fs2,
                  if_neg (show ¬ pexists fs2 tpo = true by
                    unfold pexists; rw [hntpo]; simp),
                  if_neg (show ¬ is_file fs2 tpo = true by
                    unfold is_file; rw [hntpo]; simp),
                  if_neg (show ¬ is_dir fs2 tpo = true by
                    unfold is_dir; rw [hntpo]; simp)]
            | error e =>
              have h1 : (sync_moved src tf wf dst fs).1 =
                  (fun q => if tpo <:+ q then none else fs q) := by
                rw [hmeq fs, if_pos hex, if_neg hf, if_pos hd, rmtree_ok fs tpo hdeq]
                show (match mkdir (fun q => if tpo <:+ q then none else fs q) tpn with
                  | Except.ok fs2 => (fs2, none)
                  | Except.error e =>
                    ((fun q => if tpo <:+ q then none else fs q), some e)).1 =
                  (fun q => if tpo <:+ q then none else fs q)
                rw [hmk]
              rw [h1]
              have hntpo : (fun q => if tpo <:+ q then none else fs q) tpo = none := by
                show (if tpo <:+ tpo then none else fs tpo) = none
                rw [if_pos List.suffix_rfl]
              rw [hmeq _,
                if_neg (show ¬ pexists (fun q => if tpo <:+ q then none else fs q) tpo
                    = true by unfold pexists; rw [hntpo]; simp),
                if_neg (show ¬ is_file (fun q => if tpo <:+ q then none else fs q) tpo
                    = true by unfold is_file; rw [hntpo]; simp),
                if_neg (show ¬ is_dir (fun q => if tpo <:+ q then none else fs q) tpo
                    = true by unfold is_dir; rw [hntpo]; simp)]
          · exact absurd (node_dir_of_not_file fs tpo hex (bool_eq_false hf)) hd
      · have hf : ¬ is_file fs tpo = true := fun hcon => hex (is_file_pexists fs tpo hcon)
        have hd : ¬ is_dir fs tpo = true := fun hcon => hex (is_dir_pexists fs tpo hcon)
        have h1 : sync_moved src tf wf dst fs = (fs, none) := by
          rw [hmeq fs, if_neg hex, if_neg hf, if_neg hd]
        rw [h1]
        show (sync_moved src tf wf dst fs).1 = fs
        rw [h1]

/-- C2: processing the same event twice in succession leaves the same mirror
filesystem state as processing it once, for all four event kinds, every
event, every watch pair and every starting state — including the states where
the first run raises an exception partway through. -/
theorem sync_file_idempotent (et : EventType) (src tf wf dst : List String) (fs : FS) :
    (sync_file et src tf wf dst ((sync_file et src tf wf dst fs).1)).1 =
      (sync_file et src tf wf dst fs).1 := by
  cases et with
  | created => exact sync_created_idem src tf wf fs
  | modified => exact sync_created_idem src tf wf fs
  | deleted => exact sync_deleted_idem src tf wf fs
  | moved => exact sync_moved_idem src tf wf dst fs
